import Mathlib

/-!
Verification of the `vsg` static-site generator's content pipeline
(`crates/vsm_generator`).  The Rust byte buffers are embedded as `List Char`
(the relevant markers and indices are ASCII, so byte offsets and character
offsets coincide on every execution examined here); fallible operations
return explicit result types, and Rust panics are modelled as distinguished
outcomes.  The unbounded `while` loops of the source are given a fuel
parameter; running out of fuel is a distinguished outcome that none of the
theorems below ever hits.
-/

namespace Vsg

/-- Characters of a string literal, for stating theorems about byte buffers. -/
def strL (s : String) : List Char := s.data

/-- First index at which `pat` occurs as a contiguous sublist of `l`:
the embedding of Rust `str::find` for literal string patterns. -/
def findSub : List Char → List Char → Option Nat
  | [], pat => if pat.isEmpty then some 0 else none
  | c :: tl, pat =>
    if pat.isPrefixOf (c :: tl) then some 0 else (findSub tl pat).map (· + 1)

/-- `slice l a b` embeds the Rust string slice `l[a..b]` (all uses below are
in bounds, where the clamping of `take`/`drop` never fires). -/
def slice (l : List Char) (a b : Nat) : List Char := (l.take b).drop a

/-- `replaceRange l a b repl` embeds Rust `String::replace_range(a..b, repl)`. -/
def replaceRange (l : List Char) (a b : Nat) (repl : List Char) : List Char :=
  l.take a ++ repl ++ l.drop b

/-- No occurrence of `pat` can begin strictly inside `a`, whatever follows
`a` in the buffer: position `i` neither starts a full occurrence inside `a`
nor leaves a suffix of `a` that is a prefix of `pat` (an occurrence
straddling the boundary).  Used to state "this part of the buffer contains
no marker" hypotheses. -/
def noPatStart (a pat : List Char) : Bool :=
  (List.range a.length).all fun i =>
    !(pat.isPrefixOf (a.drop i)) && !((a.drop i).isPrefixOf pat)

/-- The variable store.  Rust `HashMap<String, String>` is observed only
through `insert` (keeping the most recent binding for a key) and `get`;
an association list where the most recent insertion wins models exactly
those observations. -/
abbrev VarStore := List (List Char × List Char)

/-- `HashMap::insert`: later inserts shadow earlier ones. -/
def varInsert (m : VarStore) (k v : List Char) : VarStore := (k, v) :: m

/-- `HashMap::get`. -/
def varGet (m : VarStore) (k : List Char) : Option (List Char) :=
  match m with
  | [] => none
  | (k', v) :: tl => if k' = k then some v else varGet tl k

/-- Error message pushed by `ContentVariables::apply` when `}}` is missing
(content_variables.rs line 35 and line 51). -/
def errNoEnd (pos : Nat) : String :=
  "Unable to find end of variable. In position " ++ toString pos ++ "."

/-- Error message pushed by `ContentVariables::apply` for an unknown key
(content_variables.rs line 79). -/
def errUnknownKey (key : List Char) : String :=
  "Unable to find variable with key '" ++ String.mk key ++ "'"

/-- Outcome of the inner `while` of the assignment branch of
`ContentVariables::apply` (content_variables.rs lines 46-60). -/
inductive WidenResult where
  /-- The loop finished; `e` is the final value of `end`. -/
  | done (e : Nat)
  /-- `data[end..range.end].find("}}")` failed: the method pushes an error
  and returns. -/
  | errored
  /-- Fuel ran out (model artefact only). -/
  | fuelOut
  deriving Repr, DecidableEq

/-- The inner `while` of the assignment branch of `ContentVariables::apply`
(content_variables.rs lines 46-60): while a nested `{{` occurs inside the
candidate value, extend `end` to the next `}}`. -/
def assignWiden : Nat → List Char → Nat → Nat → Nat → Nat → WidenResult
  | 0, _, _, _, _, _ => .fuelOut
  | fuel + 1, data, rs, re, keyStart, e =>
    match findSub (slice data keyStart (e - 2)) (strL "\x7b\x7b") with
    | none => .done e
    | some s =>
      match findSub (slice data e re) (strL "\x7d\x7d") with
      | none => .errored
      | some ne => assignWiden fuel data rs re (keyStart + s + 2) (e + ne + 2)

/-- Outcome of `ContentVariables::apply`. -/
inductive ApplyResult where
  /-- The method returned: final buffer, variable store, and the errors of
  the `ContentResult` (initial errors plus any pushed by the method). -/
  | ok (data : List Char) (vars : VarStore) (errs : List String)
  /-- `context.md_post_list.get().unwrap()` panicked: the `OnceLock` cell
  was not yet assigned (content_variables.rs line 75). -/
  | panicked
  /-- Fuel ran out (model artefact only). -/
  | fuelOut
  deriving Repr, DecidableEq

/-- Embedding of `ContentVariables::apply` (content_variables.rs lines
23-93).  `data` is the buffer, `rs..re` the range argument, `vars` the
`variables` map, `errs` the errors accumulated so far in the
`ContentResult`, and `cell` the `context.md_post_list` once-cell (`none`
when unassigned).  One unit of fuel is one iteration of the outer `while`
loop. -/
def applyLoop : Nat → List Char → Nat → Nat → VarStore → List String →
    Option (List Char) → ApplyResult
  | 0, _, _, _, _, _, _ => .fuelOut
  | fuel + 1, data, rs, re, vars, errs, cell =>
    match findSub (slice data rs re) (strL "\x7b\x7b") with
    | none => .ok data vars errs
    | some start =>
      -- the Rust locals `range.start += start`, `end`, `key` are inlined:
      -- `range.start` is `rs + start`, `end` is `rs + start + e0 + 2`, and
      -- `key` is `slice data (range.start + 2) (end - 2)`
      match findSub (slice data (rs + start) re) (strL "\x7d\x7d") with
      | none => .ok data vars (errs ++ [errNoEnd (rs + start)])
      | some e0 =>
        match findSub (slice data (rs + start + 2) (rs + start + e0 + 2 - 2))
            (strL ":") with
        | some set =>
          match assignWiden (fuel + 1) data (rs + start) re
              (rs + start + set + 3) (rs + start + e0 + 2) with
          | .fuelOut => .fuelOut
          | .errored => .ok data vars (errs ++ [errNoEnd (rs + start)])
          | .done e =>
            applyLoop fuel (replaceRange data (rs + start) e [])
              (rs + start) (re - (e - (rs + start)))
              (varInsert vars
                ((slice data (rs + start + 2) (e - 2)).take set)
                ((slice data (rs + start + 2) (e - 2)).drop (set + 1)))
              errs cell
        | none =>
          if slice data (rs + start + 2) (rs + start + e0 + 2 - 2)
              = strL "md_post_list" then
            match cell with
            | none => .panicked
            | some content =>
              applyLoop fuel
                (replaceRange data (rs + start) (rs + start + e0 + 2) content)
                (rs + start + content.length)
                (re + content.length - (rs + start + e0 + 2 - (rs + start)))
                vars errs cell
          else
            match varGet vars
                (slice data (rs + start + 2) (rs + start + e0 + 2 - 2)) with
            | none =>
              .ok data vars (errs ++
                [errUnknownKey (slice data (rs + start + 2) (rs + start + e0 + 2 - 2))])
            | some content =>
              applyLoop fuel
                (replaceRange data (rs + start) (rs + start + e0 + 2) content)
                (rs + start + content.length)
                (re + content.length - (rs + start + e0 + 2 - (rs + start)))
                vars errs cell

/-! ### Generic lemmas about `findSub`, `slice` and `noPatStart` -/

theorem isPrefixOf_append (a t : List Char) : a.isPrefixOf (a ++ t) = true := by
  rw [List.isPrefixOf_iff_prefix]
  exact ⟨t, rfl⟩

theorem findSub_of_isPrefixOf {l pat : List Char} (h : pat.isPrefixOf l = true) :
    findSub l pat = some 0 := by
  cases l with
  | nil =>
    cases pat with
    | nil => rfl
    | cons c tl => simp [List.isPrefixOf] at h
  | cons c tl => simp [findSub, h]

theorem not_isPrefixOf_append {x b pat : List Char}
    (h1 : pat.isPrefixOf x = false) (h2 : x.isPrefixOf pat = false) :
    pat.isPrefixOf (x ++ b) = false := by
  by_contra hc
  rw [Bool.not_eq_false, List.isPrefixOf_iff_prefix] at hc
  rcases le_or_lt pat.length x.length with hle | hlt
  · have hx : pat <+: x :=
      List.prefix_of_prefix_length_le hc (List.prefix_append x b) hle
    rw [← List.isPrefixOf_iff_prefix] at hx
    rw [hx] at h1
    simp at h1
  · have hx : x <+: pat :=
      List.prefix_of_prefix_length_le (List.prefix_append x b) hc (le_of_lt hlt)
    rw [← List.isPrefixOf_iff_prefix] at hx
    rw [hx] at h2
    simp at h2

theorem noPatStart_head {c : Char} {tl pat : List Char}
    (h : noPatStart (c :: tl) pat = true) :
    pat.isPrefixOf (c :: tl) = false ∧ (c :: tl).isPrefixOf pat = false := by
  simp only [noPatStart, List.all_eq_true, List.mem_range] at h
  have h0 := h 0 (Nat.succ_pos _)
  simpa using h0

theorem noPatStart_cons {c : Char} {tl pat : List Char}
    (h : noPatStart (c :: tl) pat = true) : noPatStart tl pat = true := by
  simp only [noPatStart, List.all_eq_true, List.mem_range] at h ⊢
  intro i hi
  have := h (i + 1) (by simpa using hi)
  simpa [List.drop_succ_cons] using this

theorem findSub_append {a b pat : List Char} (h : noPatStart a pat = true) :
    findSub (a ++ b) pat = (findSub b pat).map (· + a.length) := by
  induction a with
  | nil =>
    cases hb : findSub b pat <;> simp [hb]
  | cons c tl ih =>
    have hh := noPatStart_head h
    have hpre : pat.isPrefixOf (c :: (tl ++ b)) = false :=
      not_isPrefixOf_append hh.1 hh.2
    rw [List.cons_append, findSub]
    simp only [hpre, Bool.false_eq_true, if_false]
    rw [ih (noPatStart_cons h)]
    cases hb : findSub b pat <;> simp [Nat.add_assoc]

theorem findSub_eq_none {l pat : List Char} (hpat : pat ≠ [])
    (h : noPatStart l pat = true) : findSub l pat = none := by
  induction l with
  | nil => simp [findSub, hpat]
  | cons c tl ih =>
    rw [findSub, (noPatStart_head h).1]
    simp [ih (noPatStart_cons h)]

theorem noPatStart_cons_of_not_mem {c : Char} {rest a : List Char}
    (h : c ∉ a) : noPatStart a (c :: rest) = true := by
  simp only [noPatStart, List.all_eq_true, List.mem_range]
  intro i hi
  rw [List.drop_eq_getElem_cons hi]
  have hne : a[i] ≠ c := fun hc => h (hc ▸ List.getElem_mem hi)
  have hne' : ¬c = a[i] := fun hc => hne hc.symm
  simp [List.isPrefixOf, hne, hne']

theorem slice_full (l : List Char) : slice l 0 l.length = l := by
  simp [slice]

theorem slice_drop (l : List Char) (a : Nat) : slice l a l.length = l.drop a := by
  simp [slice]

theorem slice_append (p x : List Char) (i j : Nat) (_hj : j ≤ x.length) :
    slice (p ++ x) (p.length + i) (p.length + j) = slice x i j := by
  simp only [slice, List.take_append_eq_append_take, List.drop_append_eq_append_drop]
  rw [List.take_of_length_le (by omega), List.drop_eq_nil_of_le (by omega)]
  simp

theorem slice_append_left (x s : List Char) (i j : Nat) (hj : j ≤ x.length) :
    slice (x ++ s) i j = slice x i j := by
  simp only [slice]
  rw [List.take_append_of_le_length hj]

theorem slice_suffix (a u : List Char) :
    slice (a ++ u) a.length (a.length + u.length) = u := by
  rw [slice, List.take_of_length_le (by simp), List.drop_left]

theorem drop_concat (p x : List Char) (j : Nat) :
    (p ++ x).drop (p.length + j) = x.drop j := by
  rw [List.drop_append_eq_append_drop, List.drop_eq_nil_of_le (by omega)]
  simp

/-! ### Conditional one-step unfolding lemmas for `applyLoop` -/

/-- No `{{` in the active range: the loop exits normally. -/
theorem applyLoop_done {data : List Char} {rs re : Nat} {vars : VarStore}
    {errs : List String} {cell : Option (List Char)} {fuel m : Nat}
    (hfuel : fuel = m + 1)
    (h : findSub (slice data rs re) (strL "\x7b\x7b") = none) :
    applyLoop fuel data rs re vars errs cell = .ok data vars errs := by
  subst hfuel
  rw [applyLoop, h]

/-- A lookup `{{key}}` whose key is found in the store: one substitution
step. -/
theorem applyLoop_lookup {data : List Char} {rs re start e0 : Nat}
    {vars : VarStore} {errs : List String} {cell : Option (List Char)}
    {key content : List Char} {fuel m : Nat} (hfuel : fuel = m + 1)
    (hfind : findSub (slice data rs re) (strL "\x7b\x7b") = some start)
    (hclose : findSub (slice data (rs + start) re) (strL "\x7d\x7d") = some e0)
    (hkey : slice data (rs + start + 2) (rs + start + e0 + 2 - 2) = key)
    (hnc : findSub key (strL ":") = none)
    (hnm : ¬(key = strL "md_post_list"))
    (hget : varGet vars key = some content) :
    applyLoop fuel data rs re vars errs cell =
      applyLoop m (replaceRange data (rs + start) (rs + start + e0 + 2) content)
        (rs + start + content.length)
        (re + content.length - (rs + start + e0 + 2 - (rs + start)))
        vars errs cell := by
  subst hfuel
  rw [applyLoop, hfind]
  simp only [hclose, hkey, hnc, if_neg hnm, hget]

/-- A lookup `{{key}}` whose key is absent from the store: the method pushes
an error naming the key and returns, leaving the buffer untouched. -/
theorem applyLoop_unknown {data : List Char} {rs re start e0 : Nat}
    {vars : VarStore} {errs : List String} {cell : Option (List Char)}
    {key : List Char} {fuel m : Nat} (hfuel : fuel = m + 1)
    (hfind : findSub (slice data rs re) (strL "\x7b\x7b") = some start)
    (hclose : findSub (slice data (rs + start) re) (strL "\x7d\x7d") = some e0)
    (hkey : slice data (rs + start + 2) (rs + start + e0 + 2 - 2) = key)
    (hnc : findSub key (strL ":") = none)
    (hnm : ¬(key = strL "md_post_list"))
    (hget : varGet vars key = none) :
    applyLoop fuel data rs re vars errs cell =
      .ok data vars (errs ++ [errUnknownKey key]) := by
  subst hfuel
  rw [applyLoop, hfind]
  simp only [hclose, hkey, hnc, if_neg hnm, hget]

/-- An inline assignment `{{key:value}}` (no nested `{{` inside the value):
the binding is stored and the whole span is deleted from the buffer. -/
theorem applyLoop_assign {data : List Char} {rs re start e0 set : Nat}
    {vars : VarStore} {errs : List String} {cell : Option (List Char)}
    {key : List Char} {fuel m : Nat} (hfuel : fuel = m + 1)
    (hfind : findSub (slice data rs re) (strL "\x7b\x7b") = some start)
    (hclose : findSub (slice data (rs + start) re) (strL "\x7d\x7d") = some e0)
    (hkey : slice data (rs + start + 2) (rs + start + e0 + 2 - 2) = key)
    (hc : findSub key (strL ":") = some set)
    (hinner : findSub (slice data (rs + start + set + 3) (rs + start + e0 + 2 - 2))
        (strL "\x7b\x7b") = none) :
    applyLoop fuel data rs re vars errs cell =
      applyLoop m (replaceRange data (rs + start) (rs + start + e0 + 2) [])
        (rs + start) (re - (rs + start + e0 + 2 - (rs + start)))
        (varInsert vars (key.take set) (key.drop (set + 1))) errs cell := by
  subst hfuel
  rw [applyLoop, hfind]
  simp only [hclose, hc, assignWiden, hinner, hkey]

/-- A lookup of the reserved key `md_post_list` with the cell unassigned:
`OnceLock::get().unwrap()` panics. -/
theorem applyLoop_mdpost_panic {data : List Char} {rs re start e0 : Nat}
    {vars : VarStore} {errs : List String} {fuel m : Nat} (hfuel : fuel = m + 1)
    (hfind : findSub (slice data rs re) (strL "\x7b\x7b") = some start)
    (hclose : findSub (slice data (rs + start) re) (strL "\x7d\x7d") = some e0)
    (hkey : slice data (rs + start + 2) (rs + start + e0 + 2 - 2) = strL "md_post_list") :
    applyLoop fuel data rs re vars errs none = .panicked := by
  subst hfuel
  rw [applyLoop, hfind]
  simp only [hclose, hkey]
  simp [findSub, List.isPrefixOf, strL]

/-! ### Claim C1 -/

/-- **C1.**  For every buffer `p ++ "{{x:hello}}{{x}}" ++ s` whose
surrounding text `p`, `s` contains no other variable marker, running
`ContentVariables::apply` over the whole buffer (a) stores the binding
`x ↦ hello` produced by the inline assignment, (b) deletes the whole
`{{x:hello}}` span, and (c) replaces the `{{x}}` lookup by `hello`, so the
processed region resolves to exactly `hello` with no residual literal text
and no error is recorded. -/
theorem apply_assignment_before_use
    (p s : List Char) (vars : VarStore) (errs : List String)
    (cell : Option (List Char)) (n : Nat)
    (hp : noPatStart p (strL "\x7b\x7b") = true)
    (hs : noPatStart s (strL "\x7b\x7b") = true) :
    applyLoop (n + 3) (p ++ (strL "\x7b\x7bx:hello\x7d\x7d\x7b\x7bx\x7d\x7d" ++ s)) 0
        (p ++ (strL "\x7b\x7bx:hello\x7d\x7d\x7b\x7bx\x7d\x7d" ++ s)).length vars errs cell
      = .ok (p ++ (strL "hello" ++ s))
          (varInsert vars (strL "x") (strL "hello")) errs := by
  set data₀ := p ++ (strL "\x7b\x7bx:hello\x7d\x7d\x7b\x7bx\x7d\x7d" ++ s) with hdata₀
  have hlen₀ : data₀.length = p.length + (16 + s.length) := by
    simp [hdata₀, List.length_append, strL]
    omega
  -- iteration 1: the inline assignment `{{x:hello}}`
  have h1 : findSub (slice data₀ 0 data₀.length) (strL "\x7b\x7b") = some p.length := by
    rw [slice_full, hdata₀, findSub_append hp,
      findSub_of_isPrefixOf
        (show (strL "\x7b\x7b").isPrefixOf _ = true by
          rw [show strL "\x7b\x7bx:hello\x7d\x7d\x7b\x7bx\x7d\x7d" = strL "\x7b\x7b" ++ strL "x:hello\x7d\x7d\x7b\x7bx\x7d\x7d" from rfl,
            List.append_assoc]
          exact isPrefixOf_append _ _)]
    simp
  have h2 : findSub (slice data₀ (0 + p.length) data₀.length) (strL "\x7d\x7d")
      = some 9 := by
    rw [Nat.zero_add, slice_drop, hdata₀, List.drop_left,
      show strL "\x7b\x7bx:hello\x7d\x7d\x7b\x7bx\x7d\x7d" ++ s = strL "\x7b\x7bx:hello" ++ (strL "\x7d\x7d\x7b\x7bx\x7d\x7d" ++ s) by
        rw [show strL "\x7b\x7bx:hello\x7d\x7d\x7b\x7bx\x7d\x7d" = strL "\x7b\x7bx:hello" ++ strL "\x7d\x7d\x7b\x7bx\x7d\x7d" from rfl,
          List.append_assoc],
      findSub_append (by decide),
      findSub_of_isPrefixOf
        (show (strL "\x7d\x7d").isPrefixOf _ = true by
          rw [show strL "\x7d\x7d\x7b\x7bx\x7d\x7d" = strL "\x7d\x7d" ++ strL "\x7b\x7bx\x7d\x7d" from rfl,
            List.append_assoc]
          exact isPrefixOf_append _ _)]
    simp [strL]
  have hkey1 : slice data₀ (0 + p.length + 2) (0 + p.length + 9 + 2 - 2)
      = strL "x:hello" := by
    rw [show 0 + p.length + 2 = p.length + 2 by omega,
      show 0 + p.length + 9 + 2 - 2 = p.length + 9 by omega, hdata₀,
      slice_append _ _ _ _ (by simp [strL]),
      slice_append_left _ _ _ _ (by decide)]
    rfl
  have hc1 : findSub (strL "x:hello") (strL ":") = some 1 := by decide
  have hinner1 : findSub (slice data₀ (0 + p.length + 1 + 3) (0 + p.length + 9 + 2 - 2))
      (strL "\x7b\x7b") = none := by
    rw [show 0 + p.length + 1 + 3 = p.length + 4 by omega,
      show 0 + p.length + 9 + 2 - 2 = p.length + 9 by omega, hdata₀,
      slice_append _ _ _ _ (by simp [strL]),
      slice_append_left _ _ _ _ (by decide)]
    decide
  rw [applyLoop_assign (m := n + 2) rfl h1 h2 hkey1 hc1 hinner1]
  simp only [Nat.zero_add]
  -- normalise the state after the deletion of `{{x:hello}}`
  have hdata1 : replaceRange data₀ p.length (p.length + 9 + 2) []
      = p ++ (strL "\x7b\x7bx\x7d\x7d" ++ s) := by
    rw [replaceRange, show p.length + 9 + 2 = p.length + 11 by omega, hdata₀,
      List.take_left, drop_concat,
      List.drop_append_eq_append_drop,
      show List.drop 11 (strL "\x7b\x7bx:hello\x7d\x7d\x7b\x7bx\x7d\x7d") = strL "\x7b\x7bx\x7d\x7d" from rfl,
      show 11 - (strL "\x7b\x7bx:hello\x7d\x7d\x7b\x7bx\x7d\x7d").length = 0 from rfl, List.drop_zero]
    simp
  have hre1 : data₀.length - (p.length + 9 + 2 - p.length)
      = (p ++ (strL "\x7b\x7bx\x7d\x7d" ++ s)).length := by
    simp only [List.length_append, hlen₀]
    simp [strL]
    omega
  rw [hdata1, hre1,
    show (strL "x:hello").take 1 = strL "x" from rfl,
    show (strL "x:hello").drop 2 = strL "hello" from rfl]
  set data₁ := p ++ (strL "\x7b\x7bx\x7d\x7d" ++ s) with hdata₁
  -- iteration 2: the lookup `{{x}}`
  have h3 : findSub (slice data₁ p.length data₁.length) (strL "\x7b\x7b") = some 0 := by
    rw [slice_drop, hdata₁, List.drop_left]
    exact findSub_of_isPrefixOf
      (by rw [show strL "\x7b\x7bx\x7d\x7d" = strL "\x7b\x7b" ++ strL "x\x7d\x7d" from rfl, List.append_assoc]
          exact isPrefixOf_append _ _)
  have h4 : findSub (slice data₁ (p.length + 0) data₁.length) (strL "\x7d\x7d")
      = some 3 := by
    rw [Nat.add_zero, slice_drop, hdata₁, List.drop_left,
      show strL "\x7b\x7bx\x7d\x7d" ++ s = strL "\x7b\x7bx" ++ (strL "\x7d\x7d" ++ s) by
        rw [show strL "\x7b\x7bx\x7d\x7d" = strL "\x7b\x7bx" ++ strL "\x7d\x7d" from rfl, List.append_assoc],
      findSub_append (by decide),
      findSub_of_isPrefixOf (isPrefixOf_append _ _)]
    simp [strL]
  have hkey2 : slice data₁ (p.length + 0 + 2) (p.length + 0 + 3 + 2 - 2)
      = strL "x" := by
    rw [show p.length + 0 + 2 = p.length + 2 by omega,
      show p.length + 0 + 3 + 2 - 2 = p.length + 3 by omega, hdata₁,
      slice_append _ _ _ _ (by simp [strL]),
      slice_append_left _ _ _ _ (by decide)]
    rfl
  have hget2 : varGet (varInsert vars (strL "x") (strL "hello")) (strL "x")
      = some (strL "hello") := by
    simp [varGet, varInsert]
  rw [applyLoop_lookup (m := n + 1) rfl h3 h4 hkey2 (by decide) (by decide) hget2]
  -- normalise the state after the substitution of `{{x}}`
  have hdata2 : replaceRange data₁ (p.length + 0) (p.length + 0 + 3 + 2) (strL "hello")
      = p ++ (strL "hello" ++ s) := by
    rw [replaceRange, show p.length + 0 + 3 + 2 = p.length + 5 by omega,
      Nat.add_zero, hdata₁, List.take_left, drop_concat,
      List.drop_append_eq_append_drop,
      show List.drop 5 (strL "\x7b\x7bx\x7d\x7d") = [] from rfl,
      show 5 - (strL "\x7b\x7bx\x7d\x7d").length = 0 from rfl, List.drop_zero]
    simp
  have hre2 : data₁.length + (strL "hello").length
        - (p.length + 0 + 3 + 2 - (p.length + 0))
      = (p ++ (strL "hello" ++ s)).length := by
    simp only [List.length_append, hdata₁]
    simp [strL]
    omega
  rw [hdata2, hre2, show p.length + 0 + (strL "hello").length = p.length + 5 by
    simp [strL]]
  set data₂ := p ++ (strL "hello" ++ s) with hdata₂
  -- iteration 3: no marker remains in the active range
  have h5 : findSub (slice data₂ (p.length + 5) data₂.length) (strL "\x7b\x7b") = none := by
    rw [slice_drop, hdata₂, ← List.append_assoc,
      show p.length + 5 = (p ++ strL "hello").length by simp [strL],
      List.drop_left]
    exact findSub_eq_none (by decide) hs
  rw [applyLoop_done (m := n) rfl h5]

/-- Witness for C1: the theorem applied to the concrete buffer
`ab{{x:hello}}{{x}}cd` with an empty store. -/
theorem apply_assignment_before_use_witness :
    applyLoop 3 (strL "ab" ++ (strL "\x7b\x7bx:hello\x7d\x7d\x7b\x7bx\x7d\x7d" ++ strL "cd")) 0
        (strL "ab" ++ (strL "\x7b\x7bx:hello\x7d\x7d\x7b\x7bx\x7d\x7d" ++ strL "cd")).length [] [] none
      = .ok (strL "ab" ++ (strL "hello" ++ strL "cd"))
          (varInsert [] (strL "x") (strL "hello")) [] :=
  apply_assignment_before_use (strL "ab") (strL "cd") [] [] none 0
    (by decide) (by decide)

/-! ### Claim C2 -/

/-- **C2.**  When the next variable marker of the buffer is a lookup
`{{k}}` with `k ≠ md_post_list` and `k` absent from the store,
`ContentVariables::apply` pushes onto the per-file `ContentResult` an error
message that cites the key `k` and returns immediately: the buffer and the
store are left untouched (whatever follows the marker is never scanned),
and no exception is raised. -/
theorem apply_unknown_key_fails
    (p s k : List Char) (vars : VarStore) (errs : List String)
    (cell : Option (List Char)) (n : Nat)
    (hp : noPatStart p (strL "\x7b\x7b") = true)
    (hkb : '}' ∉ k) (hkc : ':' ∉ k)
    (hnm : ¬(k = strL "md_post_list"))
    (hget : varGet vars k = none) :
    applyLoop (n + 1) (p ++ ((strL "\x7b\x7b" ++ k ++ strL "\x7d\x7d") ++ s)) 0
        (p ++ ((strL "\x7b\x7b" ++ k ++ strL "\x7d\x7d") ++ s)).length vars errs cell
      = .ok (p ++ ((strL "\x7b\x7b" ++ k ++ strL "\x7d\x7d") ++ s)) vars
          (errs ++ [errUnknownKey k]) := by
  set data₀ := p ++ ((strL "\x7b\x7b" ++ k ++ strL "\x7d\x7d") ++ s) with hdata₀
  have hfind : findSub (slice data₀ 0 data₀.length) (strL "\x7b\x7b") = some p.length := by
    rw [slice_full, hdata₀, findSub_append hp,
      findSub_of_isPrefixOf
        (show (strL "\x7b\x7b").isPrefixOf _ = true by
          rw [List.append_assoc (strL "\x7b\x7b") k (strL "\x7d\x7d"), List.append_assoc]
          exact isPrefixOf_append _ _)]
    simp
  have hnps : noPatStart (strL "\x7b\x7b" ++ k) (strL "\x7d\x7d") = true := by
    have : '}' ∉ strL "\x7b\x7b" ++ k := by
      simp only [List.mem_append]
      rintro (h | h)
      · simp [strL] at h
      · exact hkb h
    exact noPatStart_cons_of_not_mem this
  have hclose : findSub (slice data₀ (0 + p.length) data₀.length) (strL "\x7d\x7d")
      = some (k.length + 2) := by
    rw [Nat.zero_add, slice_drop, hdata₀, List.drop_left,
      show (strL "\x7b\x7b" ++ k ++ strL "\x7d\x7d") ++ s
          = (strL "\x7b\x7b" ++ k) ++ (strL "\x7d\x7d" ++ s) by
        rw [List.append_assoc, List.append_assoc],
      findSub_append hnps, findSub_of_isPrefixOf (isPrefixOf_append _ _)]
    simp [strL]
    try omega
  have hkey : slice data₀ (0 + p.length + 2) (0 + p.length + (k.length + 2) + 2 - 2)
      = k := by
    rw [show 0 + p.length + 2 = p.length + 2 by omega,
      show 0 + p.length + (k.length + 2) + 2 - 2 = p.length + (k.length + 2) by omega,
      hdata₀, slice_append _ _ _ _ (by simp [strL]; try omega),
      slice_append_left _ _ _ _ (by simp [strL]; try omega), slice,
      List.take_append_of_le_length (by simp [strL]; try omega),
      List.take_of_length_le (by simp [strL]; try omega),
      show (2 : Nat) = (strL "\x7b\x7b").length from rfl, List.drop_left]
  have hnc : findSub k (strL ":") = none :=
    findSub_eq_none (by decide) (noPatStart_cons_of_not_mem hkc)
  rw [applyLoop_unknown (m := n) rfl hfind hclose hkey hnc hnm hget]

/-- Witness for C2: looking up `{{does_not_exist}}` in an empty store
records an error naming the key and leaves the buffer as it was. -/
theorem apply_unknown_key_fails_witness :
    applyLoop 1 (strL "a" ++ ((strL "\x7b\x7b" ++ strL "does_not_exist" ++ strL "\x7d\x7d")
        ++ strL "b")) 0
        (strL "a" ++ ((strL "\x7b\x7b" ++ strL "does_not_exist" ++ strL "\x7d\x7d")
        ++ strL "b")).length [] [] none
      = .ok (strL "a" ++ ((strL "\x7b\x7b" ++ strL "does_not_exist" ++ strL "\x7d\x7d")
          ++ strL "b")) []
          ([] ++ [errUnknownKey (strL "does_not_exist")]) :=
  apply_unknown_key_fails (strL "a") (strL "b") (strL "does_not_exist") [] [] none 0
    (by decide) (by decide) (by decide) (by decide) rfl

/-! ### Claim C3 -/

/-- One per-file render invocation as `process_content` spawns it: the
`md_post_list` cell value observable by that task, and the preliminary
output it renders. -/
structure RenderCall (α : Type) where
  cell : Option (List Char)
  out : α

/-- The render wave of `process_content` (content.rs lines 64-126), with the
per-file analysis results and the post-list builder
(`markdown::create_md_post_list`, not part of this crate's sources)
abstracted as parameters.  The `await` structure of the source is
sequential: every wave-A `join_next` completes (failed analyses are pushed
into the `ContentResult` and produce no output), then `context.md_post_list`
is `set` exactly once, and only afterwards is one render task per
preliminary output spawned; each spawned task therefore observes the
already-assigned cell. -/
def processContentCalls {α : Type} (analysisResults : List (Except String α))
    (buildPostList : List α → List Char) : List (RenderCall α) :=
  let outs := analysisResults.filterMap fun r => r.toOption
  let cell := some (buildPostList outs)
  outs.map fun o => { cell := cell, out := o }

/-- **C3.**  (i) A lookup of the reserved key `md_post_list` while the
once-cell is unassigned panics (`OnceLock::get().unwrap()`), for any buffer
whose next marker is that lookup; (ii) with the cell assigned,
`ContentVariables::apply` can never reach the panic; (iii) in
`process_content` every spawned render task observes an assigned cell — so
under the pipeline order the panic branch is unreachable in render tasks. -/
theorem md_post_list_read_before_assignment_panics :
    (∀ (p s : List Char) (vars : VarStore) (errs : List String) (n : Nat),
        noPatStart p (strL "\x7b\x7b") = true →
        applyLoop (n + 1)
            (p ++ ((strL "\x7b\x7b" ++ strL "md_post_list" ++ strL "\x7d\x7d") ++ s)) 0
            (p ++ ((strL "\x7b\x7b" ++ strL "md_post_list" ++ strL "\x7d\x7d") ++ s)).length
            vars errs none
          = .panicked)
  ∧ (∀ (fuel : Nat) (data : List Char) (rs re : Nat) (vars : VarStore)
        (errs : List String) (pl : List Char),
        applyLoop fuel data rs re vars errs (some pl) ≠ .panicked)
  ∧ (∀ (α : Type) (analysisResults : List (Except String α))
        (buildPostList : List α → List Char) (c : RenderCall α),
        c ∈ processContentCalls analysisResults buildPostList →
        c.cell = some (buildPostList
          (analysisResults.filterMap fun r => r.toOption))) := by
  refine ⟨?_, ?_, ?_⟩
  · intro p s vars errs n hp
    set data₀ := p ++ ((strL "\x7b\x7b" ++ strL "md_post_list" ++ strL "\x7d\x7d") ++ s)
      with hdata₀
    have hfind : findSub (slice data₀ 0 data₀.length) (strL "\x7b\x7b")
        = some p.length := by
      rw [slice_full, hdata₀, findSub_append hp,
        findSub_of_isPrefixOf
          (show (strL "\x7b\x7b").isPrefixOf _ = true by
            rw [List.append_assoc (strL "\x7b\x7b") (strL "md_post_list") (strL "\x7d\x7d"),
              List.append_assoc]
            exact isPrefixOf_append _ _)]
      simp
    have hclose : findSub (slice data₀ (0 + p.length) data₀.length) (strL "\x7d\x7d")
        = some 14 := by
      rw [Nat.zero_add, slice_drop, hdata₀, List.drop_left,
        show (strL "\x7b\x7b" ++ strL "md_post_list" ++ strL "\x7d\x7d") ++ s
            = strL "\x7b\x7bmd_post_list" ++ (strL "\x7d\x7d" ++ s) by
          rw [show strL "\x7b\x7b" ++ strL "md_post_list" = strL "\x7b\x7bmd_post_list" from rfl,
            List.append_assoc],
        findSub_append (by decide), findSub_of_isPrefixOf (isPrefixOf_append _ _)]
      simp [strL]
    have hkey : slice data₀ (0 + p.length + 2) (0 + p.length + 14 + 2 - 2)
        = strL "md_post_list" := by
      rw [show 0 + p.length + 2 = p.length + 2 by omega,
        show 0 + p.length + 14 + 2 - 2 = p.length + 14 by omega,
        hdata₀, slice_append _ _ _ _ (by simp [strL]),
        slice_append_left _ _ _ _ (by decide)]
      rfl
    exact applyLoop_mdpost_panic (m := n) rfl hfind hclose hkey
  · intro fuel
    induction fuel with
    | zero =>
      intro data rs re vars errs pl h
      rw [applyLoop] at h
      exact ApplyResult.noConfusion h
    | succ m ih =>
      intro data rs re vars errs pl h
      rw [applyLoop] at h
      split at h
      · exact ApplyResult.noConfusion h
      · split at h
        · exact ApplyResult.noConfusion h
        · split at h
          · split at h
            · exact ApplyResult.noConfusion h
            · exact ApplyResult.noConfusion h
            · exact ih _ _ _ _ _ _ h
          · split at h
            · exact ih _ _ _ _ _ _ h
            · split at h
              · exact ApplyResult.noConfusion h
              · exact ih _ _ _ _ _ _ h
  · intro α analysisResults buildPostList c hc
    simp only [processContentCalls, List.mem_map] at hc
    obtain ⟨o, _, rfl⟩ := hc
    rfl

/-- Witness for C3: the concrete buffer `{{md_post_list}}` panics with the
cell unset, and does not panic with the cell assigned. -/
theorem md_post_list_read_before_assignment_panics_witness :
    (applyLoop 1 (strL "" ++ ((strL "\x7b\x7b" ++ strL "md_post_list" ++ strL "\x7d\x7d")
          ++ strL "")) 0
        (strL "" ++ ((strL "\x7b\x7b" ++ strL "md_post_list" ++ strL "\x7d\x7d")
          ++ strL "")).length [] [] none
      = .panicked)
  ∧ applyLoop 2 (strL "\x7b\x7bmd_post_list\x7d\x7d") 0 16 [] [] (some (strL "L"))
      ≠ .panicked :=
  ⟨md_post_list_read_before_assignment_panics.1 (strL "") (strL "") [] [] 0
      (by decide),
    md_post_list_read_before_assignment_panics.2.1 2 (strL "\x7b\x7bmd_post_list\x7d\x7d")
      0 16 [] [] (strL "L")⟩

/-! ### Claim C8: the slug rule `get_id_from_name` -/

/-- Rust `u8::is_ascii_digit` / `char::is_ascii_digit` (`0x30..=0x39`). -/
def isAsciiDigit (c : Char) : Bool :=
  decide (48 ≤ c.toNat) && decide (c.toNat ≤ 57)

/-- Rust `char::is_ascii_alphanumeric`. -/
def isAsciiAlphanumeric (c : Char) : Bool :=
  (decide (65 ≤ c.toNat) && decide (c.toNat ≤ 90))
    || (decide (97 ≤ c.toNat) && decide (c.toNat ≤ 122))
    || isAsciiDigit c

/-- Rust `char::to_ascii_lowercase`. -/
def toAsciiLower (c : Char) : Char :=
  if 65 ≤ c.toNat ∧ c.toNat ≤ 90 then Char.ofNat (c.toNat + 32) else c

/-- Rust `str::trim` (whitespace trimmed from both ends; core
`Char.isWhitespace` agrees with `char::is_whitespace` on every ASCII
character). -/
def trimChars (l : List Char) : List Char :=
  ((l.dropWhile Char.isWhitespace).reverse.dropWhile Char.isWhitespace).reverse

/-- Embedding of `get_id_from_name` (content.rs lines 128-152): drop one
leading ASCII digit if present, then one leading `.` if present, trim, then
keep ASCII alphanumerics lowercased, map space and `_` to `-`, and drop
every other character. -/
def get_id_from_name (name : List Char) : List Char :=
  let name1 := if (name.head?.map isAsciiDigit).getD false then name.drop 1 else name
  let name2 := if name1.head? = some '.' then name1.drop 1 else name1
  (trimChars name2).foldl
    (fun result c =>
      if isAsciiAlphanumeric c then result ++ [toAsciiLower c]
      else if c = ' ' ∨ c = '_' then result ++ ['-']
      else result) []

/-- The per-character mapping of the slug loop, as a `filterMap` step. -/
def slugChar (c : Char) : Option Char :=
  if isAsciiAlphanumeric c then some (toAsciiLower c)
  else if c = ' ' ∨ c = '_' then some '-'
  else none

/-- A character allowed in a slug: lowercase ASCII letter, ASCII digit, or
the separator `-`. -/
def isSlugChar (c : Char) : Bool :=
  (decide (97 ≤ c.toNat) && decide (c.toNat ≤ 122))
    || isAsciiDigit c || c == '-'

/-- Strip one leading ASCII digit, at most once (spec wording, claim C8). -/
def stripLeadingDigit (l : List Char) : List Char :=
  match l with
  | c :: rest => if isAsciiDigit c then rest else c :: rest
  | [] => []

/-- Strip one leading `.`, at most once (spec wording, claim C8). -/
def stripLeadingDot (l : List Char) : List Char :=
  match l with
  | c :: rest => if c = '.' then rest else c :: rest
  | [] => []

/-- The slug rule in the specification's own words (claim C8): a single
leading ASCII digit is stripped at most once, then a single leading `.` is
stripped at most once, then the rest is trimmed and mapped character by
character. -/
def slugSpec (name : List Char) : List Char :=
  (trimChars (stripLeadingDot (stripLeadingDigit name))).filterMap slugChar

theorem dot_stage_eq (l : List Char) :
    (if l.head? = some '.' then l.drop 1 else l) = stripLeadingDot l := by
  cases l with
  | nil =>
    rw [if_neg (by simp)]
    rfl
  | cons c2 r2 =>
    by_cases h : c2 = '.'
    · subst h
      simp [stripLeadingDot]
    · rw [if_neg (by simpa using h)]
      show c2 :: r2 = if c2 = '.' then r2 else c2 :: r2
      rw [if_neg h]

theorem toNat_ofNat_of_le (n : Nat) (h : n ≤ 0xd7ff) :
    (Char.ofNat n).toNat = n := by
  unfold Char.ofNat
  rw [dif_pos]
  · rfl
  · exact Or.inl (by omega)

theorem slugChar_isSlugChar {c d : Char} (h : slugChar c = some d) :
    isSlugChar d = true := by
  unfold slugChar at h
  by_cases h1 : isAsciiAlphanumeric c = true
  · rw [if_pos h1] at h
    obtain rfl : toAsciiLower c = d := Option.some_injective _ h
    simp only [isAsciiAlphanumeric, isAsciiDigit, Bool.or_eq_true,
      Bool.and_eq_true, decide_eq_true_eq] at h1
    unfold toAsciiLower isSlugChar isAsciiDigit
    rcases h1 with (h1 | h1) | h1
    · rw [if_pos (by omega)]
      have := toNat_ofNat_of_le (c.toNat + 32) (by omega)
      simp only [this, Bool.or_eq_true, Bool.and_eq_true, decide_eq_true_eq]
      left; left; omega
    · rw [if_neg (by omega)]
      simp only [Bool.or_eq_true, Bool.and_eq_true, decide_eq_true_eq]
      left; left; omega
    · rw [if_neg (by omega)]
      simp only [Bool.or_eq_true, Bool.and_eq_true, decide_eq_true_eq]
      left; right; omega
  · rw [if_neg h1] at h
    by_cases h2 : c = ' ' ∨ c = '_'
    · rw [if_pos h2] at h
      obtain rfl : '-' = d := Option.some_injective _ h
      decide
    · rw [if_neg h2] at h
      exact Option.noConfusion h

theorem foldl_slug_eq_filterMap (l : List Char) (acc : List Char) :
    l.foldl
      (fun result c =>
        if isAsciiAlphanumeric c then result ++ [toAsciiLower c]
        else if c = ' ' ∨ c = '_' then result ++ ['-']
        else result) acc
      = acc ++ l.filterMap slugChar := by
  induction l generalizing acc with
  | nil => simp
  | cons c tl ih =>
    simp only [List.foldl_cons, List.filterMap_cons]
    by_cases h1 : isAsciiAlphanumeric c = true
    · have hs : slugChar c = some (toAsciiLower c) := by
        unfold slugChar
        rw [if_pos h1]
      rw [if_pos h1, hs, ih]
      simp
    · by_cases h2 : c = ' ' ∨ c = '_'
      · have hs : slugChar c = some '-' := by
          unfold slugChar
          rw [if_neg h1, if_pos h2]
        rw [if_neg h1, if_pos h2, hs, ih]
        simp
      · have hs : slugChar c = none := by
          unfold slugChar
          rw [if_neg h1, if_neg h2]
        rw [if_neg h1, if_neg h2, hs, ih]

/-- **C8.**  For every input, (i) every character of the output of
`get_id_from_name` is a lowercase ASCII letter, an ASCII digit, or the
separator `-`; and (ii) the function equals the specification's staged
pipeline: one leading ASCII digit stripped at most once, then one leading
`.` stripped at most once, then trim, then the character map. -/
theorem get_id_from_name_charset_and_strip :
    (∀ name : List Char, (get_id_from_name name).all isSlugChar = true)
  ∧ (∀ name : List Char, get_id_from_name name = slugSpec name) := by
  have heq : ∀ name : List Char, get_id_from_name name = slugSpec name := by
    intro name
    unfold get_id_from_name slugSpec
    rw [foldl_slug_eq_filterMap, List.nil_append]
    congr 2
    cases name with
    | nil => rfl
    | cons c rest =>
      by_cases hd : isAsciiDigit c = true
      · rw [if_pos (show ((c :: rest).head?.map isAsciiDigit).getD false = true from hd),
          show stripLeadingDigit (c :: rest) = rest by
            show (if isAsciiDigit c then rest else c :: rest) = rest
            rw [if_pos hd],
          show (c :: rest).drop 1 = rest from rfl]
        exact dot_stage_eq rest
      · rw [if_neg (show ¬((c :: rest).head?.map isAsciiDigit).getD false = true from hd),
          show stripLeadingDigit (c :: rest) = c :: rest by
            show (if isAsciiDigit c then rest else c :: rest) = c :: rest
            rw [if_neg hd]]
        exact dot_stage_eq (c :: rest)
  refine ⟨?_, heq⟩
  intro name
  rw [heq]
  unfold slugSpec
  simp only [List.all_eq_true]
  intro d hd
  obtain ⟨c, _, hc⟩ := List.mem_filterMap.mp hd
  exact slugChar_isSlugChar hc

/-! ### Claim C4: `upgrade_header` -/

/-- Embedding of `upgrade_header` (content.rs lines 354-398).  Inputs: the
end tag's name, the reader's buffer and `buffer_position()`, and the two
cursor cells `last_start_position` / `last_edited_position`.  Output
`some (fired, buffer, lastStart, lastEdited)`; `none` models a Rust panic
(`usize` underflow or out-of-bounds slice), which no execution below
reaches. -/
def upgradeHeader (elementName buffer : List Char) (pos : Nat)
    (lastStart : Option Nat) (lastEdited : Nat) :
    Option (Bool × List Char × Option Nat × Nat) :=
  if ¬(elementName.head? = some 'h'
        ∧ ((elementName.drop 1).head?.map
            (fun v => isAsciiDigit v && v != '1')).getD false = true)
      ∨ lastStart = none ∨ pos < lastEdited + 1 then
    some (false, buffer, lastStart, lastEdited)
  else
    match lastStart with
    | none => none
    | some lsp =>
      if lsp < 4 ∨ buffer.length < lsp then none
      else if ¬((strL "<h").isPrefixOf (slice buffer (lsp - 4) lsp) = true) then
        some (false, buffer, none, lastEdited)
      else if lsp < elementName.length + 2 then none
      else if pos < 5 ∨ pos - 5 < lsp ∨ buffer.length < pos - 5 then none
      else
        let id := get_id_from_name (slice buffer lsp (pos - 5))
        let new := strL "<" ++ elementName ++ strL " class=\"header-text\" id=\""
          ++ id ++ strL "\"><a href=\"#" ++ id ++ strL "\"><span>#</span> "
        let buffer1 := replaceRange buffer (lsp - elementName.length - 2) lsp new
        let pos1 := pos + (new.length - 9)
        if buffer1.length < pos1 then none
        else some (true, replaceRange buffer1 pos1 pos1 (strL "</a>"), none, pos1 + 9)

/-- Counterexample to **C4** as stated: the upgrade does not fire *exactly*
on `h2`–`h9` — an end tag named `h0` satisfies the source's test
(`h` followed by an ASCII digit other than `1`) and fires, rewriting the
heading. -/
theorem upgrade_header_fires_on_h0 :
    upgradeHeader (strL "h0") (strL "<h0>T</h0>") 10 (some 4) 0
      = some (true,
          strL "<h0 class=\"header-text\" id=\"t\"><a href=\"#t\"><span>#</span> T</a></h0>",
          none, 69) := by decide

/-- **C4 (amended).**  The heading upgrade fires only on an end tag whose
name is `h` followed by an ASCII digit other than `1` (so `h0` and
`h2`–`h9`, never `h1`), and only when a start-tag position was pending and
the dormant `<h` start tag guard and the already-upgraded guard
(`position ≥ last_edited_position + 1`) pass; on `h1` it never fires and
leaves the state untouched; on `h2` it fires and rewrites the heading with
the `header-text` class, the slug id and the self-link anchor. -/
theorem upgrade_header_fire_conditions :
    (∀ (name buffer : List Char) (pos : Nat) (ls : Option Nat) (le : Nat)
        (r : Bool × List Char × Option Nat × Nat),
        upgradeHeader name buffer pos ls le = some r → r.1 = true →
          name.head? = some 'h'
          ∧ (∃ d, (name.drop 1).head? = some d ∧ isAsciiDigit d = true ∧ d ≠ '1')
          ∧ ls ≠ none
          ∧ le + 1 ≤ pos
          ∧ ∃ lsp, ls = some lsp
              ∧ (strL "<h").isPrefixOf (slice buffer (lsp - 4) lsp) = true)
  ∧ (∀ (buffer : List Char) (pos : Nat) (ls : Option Nat) (le : Nat),
        upgradeHeader (strL "h1") buffer pos ls le = some (false, buffer, ls, le))
  ∧ (upgradeHeader (strL "h2") (strL "<h2>T</h2>") 10 (some 4) 0
      = some (true,
          strL "<h2 class=\"header-text\" id=\"t\"><a href=\"#t\"><span>#</span> T</a></h2>",
          none, 69)) := by
  refine ⟨?_, ?_, by decide⟩
  · intro name buffer pos ls le r h ht
    unfold upgradeHeader at h
    by_cases hcond : (¬(name.head? = some 'h'
          ∧ ((name.drop 1).head?.map
              (fun v => isAsciiDigit v && v != '1')).getD false = true)
        ∨ ls = none ∨ pos < le + 1)
    · rw [if_pos hcond] at h
      obtain rfl := Option.some.inj h
      simp at ht
    · rw [if_neg hcond] at h
      push_neg at hcond
      obtain ⟨hA, hB, hC⟩ := hcond
      cases ls with
      | none => exact absurd rfl hB
      | some lsp =>
        dsimp only at h
        by_cases h4 : (lsp < 4 ∨ buffer.length < lsp)
        · rw [if_pos h4] at h
          exact Option.noConfusion h
        · rw [if_neg h4] at h
          by_cases h5 : ¬((strL "<h").isPrefixOf (slice buffer (lsp - 4) lsp) = true)
          · rw [if_pos h5] at h
            obtain rfl := Option.some.inj h
            simp at ht
          · rw [if_neg h5] at h
            rw [not_not] at h5
            refine ⟨hA.1, ?_, hB, by omega, lsp, rfl, h5⟩
            have hA2 := hA.2
            cases hd : (name.drop 1).head? with
            | none =>
              rw [hd] at hA2
              simp at hA2
            | some d =>
              rw [hd] at hA2
              simp only [Option.map_some', Option.getD_some,
                Bool.and_eq_true, bne_iff_ne] at hA2
              exact ⟨d, rfl, hA2.1, hA2.2⟩
  · intro buffer pos ls le
    unfold upgradeHeader
    rw [if_pos (Or.inl (by decide))]

/-- Witness for the amended C4: the `h2` firing above satisfies every
condition of the only-when direction. -/
theorem upgrade_header_fire_conditions_witness :
    (strL "h2").head? = some 'h'
    ∧ (∃ d, ((strL "h2").drop 1).head? = some d ∧ isAsciiDigit d = true ∧ d ≠ '1')
    ∧ (some 4 : Option Nat) ≠ none
    ∧ 0 + 1 ≤ 10
    ∧ ∃ lsp, (some 4 : Option Nat) = some lsp
        ∧ (strL "<h").isPrefixOf (slice (strL "<h2>T</h2>") (lsp - 4) lsp) = true :=
  upgrade_header_fire_conditions.1 (strL "h2") (strL "<h2>T</h2>") 10 (some 4) 0
    (true,
      strL "<h2 class=\"header-text\" id=\"t\"><a href=\"#t\"><span>#</span> T</a></h2>",
      none, 69)
    (by decide) rfl

/-! ### Claims C5 and C6: citation notes -/

/-- Rust `str::trim_start_matches("www.")`: strips every leading `www.`. -/
def trimStartWWW (l : List Char) : List Char :=
  if h : (strL "www.").isPrefixOf l then
    trimStartWWW (l.drop 4)
  else l
termination_by l.length
decreasing_by
  have h4 : 4 ≤ l.length :=
    (List.isPrefixOf_iff_prefix.mp h).length_le
  simp only [List.length_drop]
  omega

/-- Outcome of `generate_cite_note_link` (markdown.rs lines 371-419): the
text appended to `cite_note_html` plus the `tracing` log lines; an `anyhow`
error (the `bail` or a propagated `Url::parse` error) carrying the text
appended before the failure; or a panic (`host().expect`). -/
inductive CiteOut where
  | ok (acc : List Char) (logs : List String)
  | errored (msg : String) (acc : List Char)
  | panicked
  | fuelOut
  deriving Repr, DecidableEq

/-- Intermediate outcome of the URL loop of `generate_cite_note_link`. -/
inductive CiteStep where
  | ok (link : Option (List Char)) (acc : List Char)
  | errored (msg : String) (acc : List Char)
  | panicked
  | fuelOut
  deriving Repr, DecidableEq

/-- The `while bracket_index < html.len()` loop of `generate_cite_note_link`
(markdown.rs lines 390-404).  `urlHost` abstracts the external `url` crate
composition `Url::parse(link)?.host()`: `.error` is a parse failure
(propagated by `?`), `.ok none` parse success without a host (the `expect`
panics), `.ok (some h)` the host name. -/
def citeLinkLoop (urlHost : List Char → Except String (Option (List Char))) :
    Nat → List Char → Nat → Option (List Char) → List Char → CiteStep
  | 0, _, _, _, _ => .fuelOut
  | fuel + 1, html, bi, link, acc =>
    if bi < html.length then
      match link with
      | some l =>
        match urlHost l with
        | .error e => .errored e acc
        | .ok none => .panicked
        | .ok (some host) =>
          citeLinkLoop urlHost fuel html
            (bi + ((findSub (slice html bi html.length) (strL " ")).getD
              (html.length - bi)) + 1)
            (some (slice html bi
              (bi + ((findSub (slice html bi html.length) (strL " ")).getD
                (html.length - bi)))))
            (acc ++ strL "<a href=\"" ++ l ++ strL "\">" ++ trimStartWWW host
              ++ strL "</a>")
      | none =>
        citeLinkLoop urlHost fuel html
          (bi + ((findSub (slice html bi html.length) (strL " ")).getD
            (html.length - bi)) + 1)
          (some (slice html bi
            (bi + ((findSub (slice html bi html.length) (strL " ")).getD
              (html.length - bi)))))
          acc
    else .ok link acc

/-- `get_description_of_cite_note` (markdown.rs lines 421-428). -/
def getDescriptionOfCiteNote (html : List Char) (bracketIndex : Nat) :
    Option (List Char) :=
  let trimmed := trimChars (html.take bracketIndex)
  if trimmed.isEmpty then none else some trimmed

/-- Embedding of `generate_cite_note_link` (markdown.rs lines 371-419):
given the `)`-terminated payload of one citation marker and the citation
id, produce the text appended to the footnote list (or the error/panic
outcome). -/
def generateCiteNoteLink (urlHost : List Char → Except String (Option (List Char)))
    (html : List Char) (citeNoteId : Nat) : CiteOut :=
  match findSub html (strL "](") with
  | none => .errored "Unable to find opening bracket for cite note." []
  | some bracketIndex =>
    match citeLinkLoop urlHost (html.length + 1) html (bracketIndex + 2) none
        (strL ("<li id=\"cite-note-" ++ toString citeNoteId ++ "\">")
          ++ (match getDescriptionOfCiteNote html bracketIndex with
              | some d => d ++ strL " - "
              | none => [])) with
    | .errored e acc => .errored e acc
    | .panicked => .panicked
    | .fuelOut => .fuelOut
    | .ok link acc =>
      match link with
      | some l =>
        .ok (acc ++ strL " - <a href=\"" ++ l ++ strL "\">archive</a></li>")
          (if (strL "https://web.archive.org/").isPrefixOf l then []
           else ["Cite note do not have link for 'web.archive.org'."])
      | none => .ok (acc ++ strL "</li>") ["Cite note do not have any link."]

/-- Outcome of `generate_cite_notes` (markdown.rs lines 328-369). -/
inductive NotesResult where
  /-- The function returned: mutated body html, footnote-list html, logs. -/
  | ok (html citeHtml : List Char) (logs : List String)
  /-- A panic propagated from `generate_cite_note_link`. -/
  | panicked
  /-- Fuel ran out (model artefact only). -/
  | fuelOut
  deriving Repr, DecidableEq

/-- The `while let Some(position)` loop of `generate_cite_notes`
(markdown.rs lines 335-362).  One unit of fuel per iteration. -/
def citeNotesLoop (urlHost : List Char → Except String (Option (List Char))) :
    Nat → List Char → Nat → Nat → List Char → List String → NotesResult
  | 0, _, _, _, _, _ => .fuelOut
  | fuel + 1, html, index, citeNoteId, citeHtml, logs =>
    match findSub (slice html index html.length) (strL "[_cn ") with
    | none => .ok html citeHtml logs
    | some position =>
      match findSub (slice html (index + position + 5) html.length)
          (strL ")") with
      | none =>
        citeNotesLoop urlHost fuel html (index + position + 1) citeNoteId
          citeHtml (logs ++ ["Unable to find closing bracket for cite note."])
      | some e =>
        match generateCiteNoteLink urlHost
            (slice html (index + position + 5) (index + position + 5 + e))
            (citeNoteId + 1) with
        | .panicked => .panicked
        | .fuelOut => .fuelOut
        | .errored msg acc =>
          citeNotesLoop urlHost fuel html (index + position + 1)
            (citeNoteId + 1) (citeHtml ++ acc)
            (logs ++ ["Unable to generate cite note link: " ++ msg])
        | .ok acc noteLogs =>
          citeNotesLoop urlHost fuel
            (replaceRange html (index + position) (index + position + e + 6)
              (strL ("<a href=\"#cite-note-" ++ toString (citeNoteId + 1)
                ++ "\" class=\"cite-note\"><sup>[" ++ toString (citeNoteId + 1)
                ++ "]</sup></a>")))
            (index + position) (citeNoteId + 1) (citeHtml ++ acc)
            (logs ++ noteLogs)

/-- Embedding of `generate_cite_notes` (markdown.rs lines 328-369). -/
def generateCiteNotes (urlHost : List Char → Except String (Option (List Char)))
    (fuel : Nat) (html : List Char) : NotesResult :=
  match citeNotesLoop urlHost fuel html 0 0 [] [] with
  | .ok html citeHtml logs =>
    .ok html
      (if citeHtml.isEmpty then
        strL "Unfortunatelly, there are no references in this article :("
       else citeHtml) logs
  | x => x

theorem isPrefixOf_of_append_isPrefixOf {x b pat : List Char}
    (h : (x ++ b).isPrefixOf pat = true) : x.isPrefixOf pat = true := by
  rw [List.isPrefixOf_iff_prefix] at h ⊢
  exact (List.prefix_append x b).trans h

theorem noPatStart_append {a b pat : List Char} (ha : noPatStart a pat = true)
    (hb : noPatStart b pat = true) : noPatStart (a ++ b) pat = true := by
  simp only [noPatStart, List.all_eq_true, List.mem_range, Bool.and_eq_true,
    Bool.not_eq_true'] at ha hb ⊢
  intro i hi
  rcases lt_or_ge i a.length with h | h
  · obtain ⟨h1, h2⟩ := ha i h
    rw [List.drop_append_eq_append_drop, show i - a.length = 0 by omega,
      List.drop_zero]
    refine ⟨not_isPrefixOf_append h1 h2, ?_⟩
    by_contra hc
    rw [Bool.not_eq_false] at hc
    rw [isPrefixOf_of_append_isPrefixOf hc] at h2
    exact Bool.noConfusion h2
  · rw [List.drop_append_eq_append_drop, List.drop_eq_nil_of_le h,
      List.nil_append]
    refine hb (i - a.length) ?_
    rw [List.length_append] at hi
    omega

theorem slice_shift (l : List Char) (n i j : Nat) :
    slice l (n + i) (n + j) = slice (l.drop n) i j := by
  simp only [slice]
  rw [List.drop_take, List.drop_take, List.drop_drop]
  congr 1
  omega

theorem slice_mid (a t z : List Char) :
    slice (a ++ (t ++ z)) a.length (a.length + t.length) = t := by
  rw [slice, List.take_append_eq_append_take,
    List.take_of_length_le (by omega),
    show a.length + t.length - a.length = t.length by omega,
    List.take_append_of_le_length (le_refl _), List.take_length,
    List.drop_left]

/-! Step lemmas for the citation loops -/

theorem citeLinkLoop_exit {urlHost : List Char → Except String (Option (List Char))}
    {fuel m : Nat} {html : List Char} {bi : Nat} {link : Option (List Char)}
    {acc : List Char} (hfuel : fuel = m + 1)
    (h : ¬bi < html.length) :
    citeLinkLoop urlHost fuel html bi link acc = .ok link acc := by
  subst hfuel
  rw [citeLinkLoop.eq_def]
  simp only [if_neg h]

theorem citeLinkLoop_first {urlHost : List Char → Except String (Option (List Char))}
    {fuel m : Nat} {html : List Char} {bi : Nat} {acc : List Char}
    (hfuel : fuel = m + 1)
    (h : bi < html.length) :
    citeLinkLoop urlHost fuel html bi none acc =
      citeLinkLoop urlHost m html
        (bi + ((findSub (slice html bi html.length) (strL " ")).getD
          (html.length - bi)) + 1)
        (some (slice html bi
          (bi + ((findSub (slice html bi html.length) (strL " ")).getD
            (html.length - bi)))))
        acc := by
  subst hfuel
  rw [citeLinkLoop.eq_def]
  simp only [if_pos h]

theorem citeNotesLoop_done {urlHost : List Char → Except String (Option (List Char))}
    {fuel m : Nat} {html : List Char} {index citeNoteId : Nat}
    {citeHtml : List Char} {logs : List String}
    (hfuel : fuel = m + 1)
    (hfind : findSub (slice html index html.length) (strL "[_cn ") = none) :
    citeNotesLoop urlHost fuel html index citeNoteId citeHtml logs
      = .ok html citeHtml logs := by
  subst hfuel
  rw [citeNotesLoop, hfind]

theorem citeNotesLoop_err {urlHost : List Char → Except String (Option (List Char))}
    {fuel m : Nat} {html : List Char} {index citeNoteId position e : Nat}
    {citeHtml acc : List Char} {logs : List String} {msg : String}
    (hfuel : fuel = m + 1)
    (hfind : findSub (slice html index html.length) (strL "[_cn ") = some position)
    (hclose : findSub (slice html (index + position + 5) html.length) (strL ")")
      = some e)
    (hlink : generateCiteNoteLink urlHost
        (slice html (index + position + 5) (index + position + 5 + e))
        (citeNoteId + 1) = .errored msg acc) :
    citeNotesLoop urlHost fuel html index citeNoteId citeHtml logs
      = citeNotesLoop urlHost m html (index + position + 1) (citeNoteId + 1)
          (citeHtml ++ acc)
          (logs ++ ["Unable to generate cite note link: " ++ msg]) := by
  subst hfuel
  rw [citeNotesLoop, hfind]
  simp only [hclose, hlink]

/-! ### Claim C5 -/

/-- Counterexample to **C5** as stated: the payload of `[_cn abc)` has no
`](` separator, yet `generate_cite_notes` does not stop the file with a
recorded error — `generate_cite_note_link`'s error is caught, logged via
`tracing::error!`, and scanning continues; the function returns normally
with the marker text still in the body and no footnote emitted. -/
theorem cite_note_malformed_not_fatal :
    generateCiteNotes (fun _ => Except.ok none) 3 (strL "x[_cn abc) y")
      = .ok (strL "x[_cn abc) y")
          (strL "Unfortunatelly, there are no references in this article :(")
          ["Unable to generate cite note link: Unable to find opening bracket for cite note."] := by
  decide

/-- **C5 (amended).**  For a citation marker whose `)`-terminated payload
contains no `](` separator, `generate_cite_note_link` returns an error
*before appending anything*; `generate_cite_notes` catches it, logs
`Unable to generate cite note link`, advances the scan index by one and
continues — the marker is left in the body, no footnote item is produced,
and the file is not failed (no error reaches the `ContentResult`). -/
theorem cite_note_without_separator_skipped
    (urlHost : List Char → Except String (Option (List Char)))
    (p s : List Char) (n : Nat)
    (hsep : findSub p (strL "](") = none)
    (hpar : ')' ∉ p) (hbr : '[' ∉ p) (hsbr : '[' ∉ s) :
    generateCiteNotes urlHost (n + 2) (strL "[_cn " ++ (p ++ (strL ")" ++ s)))
      = .ok (strL "[_cn " ++ (p ++ (strL ")" ++ s)))
          (strL "Unfortunatelly, there are no references in this article :(")
          ["Unable to generate cite note link: Unable to find opening bracket for cite note."] := by
  set html := strL "[_cn " ++ (p ++ (strL ")" ++ s)) with hhtml
  have hfind : findSub (slice html 0 html.length) (strL "[_cn ") = some 0 := by
    rw [slice_full, hhtml]
    exact findSub_of_isPrefixOf (isPrefixOf_append _ _)
  have hclose : findSub (slice html (0 + 0 + 5) html.length) (strL ")")
      = some p.length := by
    have hnp : noPatStart p (strL ")") = true := noPatStart_cons_of_not_mem hpar
    rw [show (0 + 0 + 5 : Nat) = (strL "[_cn ").length from rfl, slice_drop,
      hhtml, List.drop_left, findSub_append hnp,
      findSub_of_isPrefixOf (isPrefixOf_append _ _)]
    simp
  have hpay : slice html (0 + 0 + 5) (0 + 0 + 5 + p.length) = p := by
    rw [show (0 + 0 + 5 : Nat) = (strL "[_cn ").length + 0 from rfl,
      show (strL "[_cn ").length + 0 + p.length
        = (strL "[_cn ").length + (0 + p.length) by omega,
      hhtml, slice_append _ _ _ _ (by simp), slice]
    simp
  have hlink : generateCiteNoteLink urlHost p 1
      = .errored "Unable to find opening bracket for cite note." [] := by
    unfold generateCiteNoteLink
    rw [hsep]
  rw [generateCiteNotes,
    citeNotesLoop_err (m := n + 1) rfl hfind hclose (by rw [hpay]; exact hlink)]
  have hfind2 : findSub (slice html (0 + 0 + 1) html.length) (strL "[_cn ")
      = none := by
    rw [show (0 + 0 + 1 : Nat) = 1 from rfl, slice_drop, hhtml,
      List.drop_append_eq_append_drop]
    refine findSub_eq_none (by decide) (noPatStart_cons_of_not_mem ?_)
    rw [show (1 - (strL "[_cn ").length : Nat) = 0 from rfl, List.drop_zero,
      show List.drop 1 (strL "[_cn ") = strL "_cn " from rfl]
    simp only [List.mem_append]
    rintro (h | h | h | h)
    · revert h
      decide
    · exact hbr h
    · revert h
      decide
    · exact hsbr h
  rw [citeNotesLoop_done (m := n) rfl hfind2]
  simp

/-- Witness for the amended C5, at the payload `abc` inside `Q[_cn abc)R`. -/
theorem cite_note_without_separator_skipped_witness :
    generateCiteNotes (fun _ => Except.ok none) 2
        (strL "[_cn " ++ (strL "abc" ++ (strL ")" ++ strL "R")))
      = .ok (strL "[_cn " ++ (strL "abc" ++ (strL ")" ++ strL "R")))
          (strL "Unfortunatelly, there are no references in this article :(")
          ["Unable to generate cite note link: Unable to find opening bracket for cite note."] :=
  cite_note_without_separator_skipped (fun _ => Except.ok none)
    (strL "abc") (strL "R") 0 (by decide) (by decide) (by decide) (by decide)

/-! ### Claim C6 -/

/-- Counterexample to **C6** as stated: for the well-formed payload
`d](https://example.com/a` whose last (only) URL is not an archive.org
URL, `generate_cite_note_link` logs — but it still renders the trailing
`archive` link, pointing at that non-archive URL.  The claim's "renders
without an archive link" is false. -/
theorem cite_note_nonarchive_still_gets_archive_link :
    generateCiteNoteLink (fun _ => Except.ok none)
        (strL "d](https://example.com/a") 1
      = .ok (strL "<li id=\"cite-note-1\">d -  - <a href=\"https://example.com/a\">archive</a></li>")
          ["Cite note do not have link for 'web.archive.org'."] := by
  decide

/-- **C6 (amended).**  For a well-formed payload `d](u` with a single URL
`u` (no spaces) that does not start with `https://web.archive.org/`,
`generate_cite_note_link` succeeds (it does not fail the file), logs
`Cite note do not have link for 'web.archive.org'`, and renders the
footnote item *with* the trailing archive link pointing at `u`. -/
theorem cite_note_nonarchive_link_rendered
    (urlHost : List Char → Except String (Option (List Char)))
    (d u : List Char) (citeNoteId : Nat)
    (hd : ']' ∉ d)
    (hu_sp : ' ' ∉ u) (hu_ne : u ≠ [])
    (hu_arch : (strL "https://web.archive.org/").isPrefixOf u = false) :
    generateCiteNoteLink urlHost (d ++ (strL "](" ++ u)) citeNoteId
      = .ok (strL ("<li id=\"cite-note-" ++ toString citeNoteId ++ "\">")
          ++ (if (trimChars d).isEmpty then [] else trimChars d ++ strL " - ")
          ++ strL " - <a href=\"" ++ u ++ strL "\">archive</a></li>")
        ["Cite note do not have link for 'web.archive.org'."] := by
  set html := d ++ (strL "](" ++ u) with hhtml
  have hlen : html.length = d.length + (2 + u.length) := by
    simp [hhtml, strL]
    omega
  have hnp : noPatStart d (strL "](") = true := noPatStart_cons_of_not_mem hd
  have hfind : findSub html (strL "](") = some d.length := by
    rw [hhtml, findSub_append hnp, findSub_of_isPrefixOf (isPrefixOf_append _ _)]
    simp
  have hdesc : getDescriptionOfCiteNote html d.length
      = (if (trimChars d).isEmpty then none else some (trimChars d)) := by
    unfold getDescriptionOfCiteNote
    rw [hhtml, List.take_left]
  have hstep1 : ∀ acc : List Char,
      citeLinkLoop urlHost (html.length + 1) html (d.length + 2) none acc
        = .ok (some u) acc := by
    intro acc
    have hlt : d.length + 2 < html.length := by
      rw [hlen]
      have : u.length ≠ 0 := fun h0 => hu_ne (List.eq_nil_of_length_eq_zero h0)
      omega
    have hsp : findSub (slice html (d.length + 2) html.length) (strL " ")
        = none := by
      rw [slice_drop, hhtml,
        show d.length + 2 = (d ++ strL "](").length by simp [strL]; try omega,
        ← List.append_assoc, List.drop_left]
      exact findSub_eq_none (by decide) (noPatStart_cons_of_not_mem hu_sp)
    have hend : (findSub (slice html (d.length + 2) html.length)
        (strL " ")).getD (html.length - (d.length + 2)) = u.length := by
      rw [hsp, Option.getD_none, hlen]
      omega
    have hslice : slice html (d.length + 2) (d.length + 2 + u.length) = u := by
      rw [hhtml, ← List.append_assoc,
        show d.length + 2 = (d ++ strL "](").length by simp [strL]; try omega]
      exact slice_suffix _ _
    rw [citeLinkLoop_first rfl hlt, hend, hslice,
      citeLinkLoop_exit (show html.length = (html.length - 1) + 1 by
        rw [hlen]; omega) (by rw [hlen]; omega)]
  unfold generateCiteNoteLink
  rw [hfind]
  by_cases hde : (trimChars d).isEmpty = true
  · simp only [hdesc, if_pos hde, hstep1, hu_arch]
    simp
  · simp only [hdesc, if_neg hde, hstep1, hu_arch]
    simp

/-- Witness for the amended C6 at `d](https://example.com/a`. -/
theorem cite_note_nonarchive_link_rendered_witness :
    generateCiteNoteLink (fun _ => Except.ok none)
        (strL "d" ++ (strL "](" ++ strL "https://example.com/a")) 7
      = .ok (strL ("<li id=\"cite-note-" ++ toString 7 ++ "\">")
          ++ (if (trimChars (strL "d")).isEmpty then []
              else trimChars (strL "d") ++ strL " - ")
          ++ strL " - <a href=\"" ++ strL "https://example.com/a"
          ++ strL "\">archive</a></li>")
        ["Cite note do not have link for 'web.archive.org'."] :=
  cite_note_nonarchive_link_rendered (fun _ => Except.ok none)
    (strL "d") (strL "https://example.com/a") 7
    (by decide) (by decide) (by decide) (by decide)

/-! ### Claim C7: the table of contents -/

/-- Embedding of `generate_element_for_table_of_contents` (markdown.rs
lines 295-326). -/
def generateElementForToc (toc : List Char) (header : Option (List Char))
    (level lastLevel : Nat) : List Char :=
  match header with
  | none => toc
  | some header =>
    toc ++ strL "<li>"
      ++ (if lastLevel < level then strL "<details open><summary>" else [])
      ++ strL "<a href=\"#" ++ get_id_from_name header ++ strL "\">" ++ header
      ++ strL "</a>"
      ++ (if lastLevel < level then strL "</summary><ul>" else [])
      ++ (List.replicate (lastLevel - level) (strL "</li></ul></details>")).flatten
      ++ (if level ≤ lastLevel then strL "</li>" else [])

/-- `html[i..i+1].parse::<usize>()` on the single byte after `<h`:
`some` the digit value, `none` a parse failure (the `unwrap` panics). -/
def parseLevel (l : List Char) : Option Nat :=
  match l with
  | [c] => if isAsciiDigit c then some (c.toNat - 48) else none
  | _ => none

/-- State of the heading-scan loop of `generate_table_of_contents` when it
exits. -/
inductive TocLoopOut where
  | ok (toc : List Char) (header : Option (List Char)) (lastLevel : Nat)
      (logs : List String)
  /-- The `parse::<usize>().unwrap()` panicked on a non-digit after `<h`. -/
  | panicked
  /-- Fuel ran out (model artefact only). -/
  | fuelOut
  deriving Repr, DecidableEq

/-- The `while let Some(position)` loop of `generate_table_of_contents`
(markdown.rs lines 248-276).  One unit of fuel per iteration. -/
def tocLoop : Nat → List Char → Nat → List Char → Nat → Option (List Char) →
    List String → TocLoopOut
  | 0, _, _, _, _, _, _ => .fuelOut
  | fuel + 1, html, index, toc, lastLevel, header, logs =>
    match findSub (slice html index html.length) (strL "<h") with
    | none => .ok toc header lastLevel logs
    | some position =>
      match parseLevel (slice html (index + position + 2) (index + position + 3)) with
      | none => .panicked
      | some level =>
        if level = 1 then
          tocLoop fuel html (index + position + 4) toc lastLevel header logs
        else
          match findSub (slice html (index + position + 4) html.length)
              (strL "</h") with
          | some e =>
            tocLoop fuel html (index + position + 4 + e)
              (generateElementForToc toc header level lastLevel) level
              (some (slice html (index + position + 4) (index + position + 4 + e)))
              logs
          | none =>
            tocLoop fuel html (index + position + 4 + 1) toc lastLevel header
              (logs ++ ["Unable to find closing bracket for header."])

/-- Outcome of `generate_table_of_contents` (markdown.rs lines 241-293):
the desktop and mobile fragments plus the `tracing` log lines. -/
inductive TocResult where
  | ok (desktop mobile : List Char) (logs : List String)
  | panicked
  | fuelOut
  deriving Repr, DecidableEq

/-- Embedding of `generate_table_of_contents` (markdown.rs lines 241-293). -/
def generateTableOfContents (fuel : Nat) (html : List Char) : TocResult :=
  match tocLoop fuel html 0 [] 2 none [] with
  | .panicked => .panicked
  | .fuelOut => .fuelOut
  | .ok toc header lastLevel logs =>
    let toc := generateElementForToc toc header 2 lastLevel
    if toc.isEmpty then
      .ok (toc ++ strL "Unfortunatelly, there are no headers in this article :(")
        (toc ++ strL "Unfortunatelly, there are no headers in this article :(")
        logs
    else
      .ok (strL "<li><a class=\"top\" href=\"#\">(Top)</a></li>" ++ toc
            ++ strL "<li><a href=\"#references\">References</a></li>")
        (toc ++ strL "<li><a href=\"#references\">References</a></li>") logs

/-- One heading iteration of the TOC scan: the buffer at `index` reads
`pre`, then `<h`, a digit `lvl` other than `1`, `>`, the heading text `t`,
and its `</h` closer. -/
theorem tocLoop_heading_step {fuel m : Nat} (hfuel : fuel = m + 1)
    {html : List Char} {index : Nat} {toc : List Char} {lastLevel : Nat}
    {header : Option (List Char)} {logs : List String}
    {pre t rest : List Char} {lvl : Char}
    (hdrop : html.drop index
      = pre ++ (strL "<h" ++ ([lvl] ++ (strL ">" ++ (t ++ (strL "</h" ++ rest))))))
    (hpre : noPatStart pre (strL "<h") = true)
    (ht : noPatStart t (strL "</h") = true)
    (hdig : isAsciiDigit lvl = true) (hne1 : ¬(lvl.toNat - 48 = 1)) :
    tocLoop fuel html index toc lastLevel header logs
      = tocLoop m html (index + pre.length + 4 + t.length)
          (generateElementForToc toc header (lvl.toNat - 48) lastLevel)
          (lvl.toNat - 48) (some t) logs := by
  subst hfuel
  have hfind : findSub (slice html index html.length) (strL "<h")
      = some pre.length := by
    rw [slice_drop, hdrop, findSub_append hpre,
      findSub_of_isPrefixOf (isPrefixOf_append _ _)]
    simp
  have hlvl : slice html (index + pre.length + 2) (index + pre.length + 3)
      = [lvl] := by
    rw [show index + pre.length + 2 = index + (pre.length + 2) by omega,
      show index + pre.length + 3 = index + (pre.length + 3) by omega,
      slice_shift, hdrop,
      slice_append _ _ _ _ (by
        have e1 : (strL "<h").length = 2 := rfl
        have e2 : (strL ">").length = 1 := rfl
        have e3 : (strL "</h").length = 3 := rfl
        simp [List.length_append, e1, e2, e3]
        try omega),
      show (2 : Nat) = (strL "<h").length + 0 from rfl,
      show (3 : Nat) = (strL "<h").length + 1 from rfl,
      slice_append _ _ _ _ (by simp), slice, List.drop_zero,
      List.take_append_of_le_length (by simp)]
    rfl
  have hparse : parseLevel [lvl] = some (lvl.toNat - 48) := by
    show (if isAsciiDigit lvl = true then some (lvl.toNat - 48) else none)
      = some (lvl.toNat - 48)
    rw [if_pos hdig]
  have hreassoc : html.drop index
      = (pre ++ (strL "<h" ++ ([lvl] ++ strL ">")))
          ++ (t ++ (strL "</h" ++ rest)) := by
    rw [hdrop]
    simp [List.append_assoc]
  have hlen4 : (pre ++ (strL "<h" ++ ([lvl] ++ strL ">"))).length
      = pre.length + 4 := by
    simp [strL]
  have hclose : findSub (slice html (index + pre.length + 4) html.length)
      (strL "</h") = some t.length := by
    rw [show index + pre.length + 4 = index + (pre.length + 4) by omega,
      slice_drop, ← List.drop_drop, hreassoc, ← hlen4, List.drop_left,
      findSub_append ht, findSub_of_isPrefixOf (isPrefixOf_append _ _)]
    simp
  have hslice : slice html (index + pre.length + 4)
      (index + pre.length + 4 + t.length) = t := by
    rw [show index + pre.length + 4 = index + (pre.length + 4) by omega,
      show index + (pre.length + 4) + t.length
        = index + (pre.length + 4 + t.length) by omega,
      slice_shift, hreassoc, ← hlen4,
      show (pre ++ (strL "<h" ++ ([lvl] ++ strL ">"))).length + t.length
        = (pre ++ (strL "<h" ++ ([lvl] ++ strL ">"))).length + t.length from rfl,
      slice_mid]
  rw [tocLoop, hfind]
  simp only [hlvl, hparse, if_neg hne1, hclose, hslice]

/-- Exit iteration of the TOC scan: no `<h` remains after `index`. -/
theorem tocLoop_done {fuel m : Nat} (hfuel : fuel = m + 1)
    {html : List Char} {index : Nat} {toc : List Char} {lastLevel : Nat}
    {header : Option (List Char)} {logs : List String} {tail : List Char}
    (hdrop : html.drop index = tail)
    (htail : noPatStart tail (strL "<h") = true) :
    tocLoop fuel html index toc lastLevel header logs
      = .ok toc header lastLevel logs := by
  subst hfuel
  have hfind : findSub (slice html index html.length) (strL "<h") = none := by
    rw [slice_drop, hdrop]
    exact findSub_eq_none (by decide) htail
  rw [tocLoop, hfind]

/-- **C7.**  For every body whose level-≥2 headings appear in the order
`h2, h3, h3, h2` (arbitrary heading texts `t1..t4` containing no `</h`,
arbitrary surrounding text `s0..s4` containing no `<h`),
`generate_table_of_contents` returns, for both variants, a list with one
top-level item whose nested two-item sublist is opened with
`<details open><summary>…</summary><ul>` and closed with
`</ul></details>`, followed by a second top-level item (then the
References item); every `<li>`, `<ul>` and `<details>` opened in the
produced fragment is closed. -/
theorem toc_nesting_h2_h3_h3_h2
    (s0 s1 s2 s3 s4 t1 t2 t3 t4 : List Char) (n : Nat)
    (hs0 : noPatStart s0 (strL "<h") = true)
    (hs1 : noPatStart s1 (strL "<h") = true)
    (hs2 : noPatStart s2 (strL "<h") = true)
    (hs3 : noPatStart s3 (strL "<h") = true)
    (hs4 : noPatStart s4 (strL "<h") = true)
    (ht1 : noPatStart t1 (strL "</h") = true)
    (ht2 : noPatStart t2 (strL "</h") = true)
    (ht3 : noPatStart t3 (strL "</h") = true)
    (ht4 : noPatStart t4 (strL "</h") = true) :
    generateTableOfContents (n + 5)
        (s0 ++ (strL "<h2>" ++ (t1 ++ (strL "</h2>" ++ (s1 ++ (strL "<h3>"
          ++ (t2 ++ (strL "</h3>" ++ (s2 ++ (strL "<h3>" ++ (t3
          ++ (strL "</h3>" ++ (s3 ++ (strL "<h2>" ++ (t4
          ++ (strL "</h2>" ++ s4))))))))))))))))
      = .ok
          (strL "<li><a class=\"top\" href=\"#\">(Top)</a></li>"
            ++ (strL "<li>" ++ strL "<details open><summary>"
              ++ strL "<a href=\"#" ++ get_id_from_name t1 ++ strL "\">" ++ t1
              ++ strL "</a>" ++ strL "</summary><ul>"
              ++ strL "<li>" ++ strL "<a href=\"#" ++ get_id_from_name t2
              ++ strL "\">" ++ t2 ++ strL "</a>" ++ strL "</li>"
              ++ strL "<li>" ++ strL "<a href=\"#" ++ get_id_from_name t3
              ++ strL "\">" ++ t3 ++ strL "</a>" ++ strL "</li></ul></details>"
              ++ strL "</li>"
              ++ strL "<li>" ++ strL "<a href=\"#" ++ get_id_from_name t4
              ++ strL "\">" ++ t4 ++ strL "</a>" ++ strL "</li>")
            ++ strL "<li><a href=\"#references\">References</a></li>")
          ((strL "<li>" ++ strL "<details open><summary>"
              ++ strL "<a href=\"#" ++ get_id_from_name t1 ++ strL "\">" ++ t1
              ++ strL "</a>" ++ strL "</summary><ul>"
              ++ strL "<li>" ++ strL "<a href=\"#" ++ get_id_from_name t2
              ++ strL "\">" ++ t2 ++ strL "</a>" ++ strL "</li>"
              ++ strL "<li>" ++ strL "<a href=\"#" ++ get_id_from_name t3
              ++ strL "\">" ++ t3 ++ strL "</a>" ++ strL "</li></ul></details>"
              ++ strL "</li>"
              ++ strL "<li>" ++ strL "<a href=\"#" ++ get_id_from_name t4
              ++ strL "\">" ++ t4 ++ strL "</a>" ++ strL "</li>")
            ++ strL "<li><a href=\"#references\">References</a></li>")
          [] := by
  have eh : (strL "<h").length = 2 := rfl
  have eg : (strL ">").length = 1 := rfl
  have ec : (strL "</h").length = 3 := rfl
  have e2g : (strL "2>").length = 2 := rfl
  have e3g : (strL "3>").length = 2 := rfl
  set html := s0 ++ (strL "<h2>" ++ (t1 ++ (strL "</h2>" ++ (s1 ++ (strL "<h3>"
    ++ (t2 ++ (strL "</h3>" ++ (s2 ++ (strL "<h3>" ++ (t3
    ++ (strL "</h3>" ++ (s3 ++ (strL "<h2>" ++ (t4
    ++ (strL "</h2>" ++ s4))))))))))))))) with hhtml
  have hcanon : html = s0 ++ (strL "<h" ++ (['2'] ++ (strL ">" ++ (t1 ++ (strL "</h" ++ (strL "2>" ++ (s1 ++ (strL "<h" ++ (['3'] ++ (strL ">" ++ (t2 ++ (strL "</h" ++ (strL "3>" ++ (s2 ++ (strL "<h" ++ (['3'] ++ (strL ">" ++ (t3 ++ (strL "</h" ++ (strL "3>" ++ (s3 ++ (strL "<h" ++ (['2'] ++ (strL ">" ++ (t4 ++ (strL "</h" ++ (strL "2>" ++ (s4)))))))))))))))))))))))))))) := by
    rw [hhtml,
      show strL "<h2>" = strL "<h" ++ (['2'] ++ strL ">") from rfl,
      show strL "<h3>" = strL "<h" ++ (['3'] ++ strL ">") from rfl,
      show strL "</h2>" = strL "</h" ++ strL "2>" from rfl,
      show strL "</h3>" = strL "</h" ++ strL "3>" from rfl]
    simp [List.append_assoc]
  have hdrop1 : html.drop 0 = (s0) ++ (strL "<h" ++ (['2'] ++ (strL ">" ++ (t1 ++ (strL "</h" ++ (strL "2>" ++ (s1 ++ (strL "<h" ++ (['3'] ++ (strL ">" ++ (t2 ++ (strL "</h" ++ (strL "3>" ++ (s2 ++ (strL "<h" ++ (['3'] ++ (strL ">" ++ (t3 ++ (strL "</h" ++ (strL "3>" ++ (s3 ++ (strL "<h" ++ (['2'] ++ (strL ">" ++ (t4 ++ (strL "</h" ++ (strL "2>" ++ (s4)))))))))))))))))))))))))))) := by
    rw [List.drop_zero, hcanon]
  have hP2 : html = (s0 ++ (strL "<h" ++ (['2'] ++ (strL ">" ++ (t1))))) ++ ((strL "</h" ++ (strL "2>" ++ (s1))) ++ (strL "<h" ++ (['3'] ++ (strL ">" ++ (t2 ++ (strL "</h" ++ (strL "3>" ++ (s2 ++ (strL "<h" ++ (['3'] ++ (strL ">" ++ (t3 ++ (strL "</h" ++ (strL "3>" ++ (s3 ++ (strL "<h" ++ (['2'] ++ (strL ">" ++ (t4 ++ (strL "</h" ++ (strL "2>" ++ (s4)))))))))))))))))))))) := by
    rw [hcanon]
    simp [List.append_assoc]
  have hdrop2 : html.drop (0 + s0.length + 4 + t1.length) = (strL "</h" ++ (strL "2>" ++ (s1))) ++ (strL "<h" ++ (['3'] ++ (strL ">" ++ (t2 ++ (strL "</h" ++ (strL "3>" ++ (s2 ++ (strL "<h" ++ (['3'] ++ (strL ">" ++ (t3 ++ (strL "</h" ++ (strL "3>" ++ (s3 ++ (strL "<h" ++ (['2'] ++ (strL ">" ++ (t4 ++ (strL "</h" ++ (strL "2>" ++ (s4))))))))))))))))))))) := by
    rw [hP2, show 0 + s0.length + 4 + t1.length = (s0 ++ (strL "<h" ++ (['2'] ++ (strL ">" ++ (t1))))).length by
        simp [List.length_append, eh, eg, ec, e2g, e3g]
        omega,
      List.drop_left]
  have hP3 : html = (s0 ++ (strL "<h" ++ (['2'] ++ (strL ">" ++ (t1 ++ (strL "</h" ++ (strL "2>" ++ (s1 ++ (strL "<h" ++ (['3'] ++ (strL ">" ++ (t2)))))))))))) ++ ((strL "</h" ++ (strL "3>" ++ (s2))) ++ (strL "<h" ++ (['3'] ++ (strL ">" ++ (t3 ++ (strL "</h" ++ (strL "3>" ++ (s3 ++ (strL "<h" ++ (['2'] ++ (strL ">" ++ (t4 ++ (strL "</h" ++ (strL "2>" ++ (s4))))))))))))))) := by
    rw [hcanon]
    simp [List.append_assoc]
  have hdrop3 : html.drop (0 + s0.length + 4 + t1.length + (strL "</h" ++ (strL "2>" ++ (s1))).length + 4 + t2.length) = (strL "</h" ++ (strL "3>" ++ (s2))) ++ (strL "<h" ++ (['3'] ++ (strL ">" ++ (t3 ++ (strL "</h" ++ (strL "3>" ++ (s3 ++ (strL "<h" ++ (['2'] ++ (strL ">" ++ (t4 ++ (strL "</h" ++ (strL "2>" ++ (s4)))))))))))))) := by
    rw [hP3, show 0 + s0.length + 4 + t1.length + (strL "</h" ++ (strL "2>" ++ (s1))).length + 4 + t2.length = (s0 ++ (strL "<h" ++ (['2'] ++ (strL ">" ++ (t1 ++ (strL "</h" ++ (strL "2>" ++ (s1 ++ (strL "<h" ++ (['3'] ++ (strL ">" ++ (t2)))))))))))).length by
        simp [List.length_append, eh, eg, ec, e2g, e3g]
        omega,
      List.drop_left]
  have hP4 : html = (s0 ++ (strL "<h" ++ (['2'] ++ (strL ">" ++ (t1 ++ (strL "</h" ++ (strL "2>" ++ (s1 ++ (strL "<h" ++ (['3'] ++ (strL ">" ++ (t2 ++ (strL "</h" ++ (strL "3>" ++ (s2 ++ (strL "<h" ++ (['3'] ++ (strL ">" ++ (t3))))))))))))))))))) ++ ((strL "</h" ++ (strL "3>" ++ (s3))) ++ (strL "<h" ++ (['2'] ++ (strL ">" ++ (t4 ++ (strL "</h" ++ (strL "2>" ++ (s4)))))))) := by
    rw [hcanon]
    simp [List.append_assoc]
  have hdrop4 : html.drop (0 + s0.length + 4 + t1.length + (strL "</h" ++ (strL "2>" ++ (s1))).length + 4 + t2.length + (strL "</h" ++ (strL "3>" ++ (s2))).length + 4 + t3.length) = (strL "</h" ++ (strL "3>" ++ (s3))) ++ (strL "<h" ++ (['2'] ++ (strL ">" ++ (t4 ++ (strL "</h" ++ (strL "2>" ++ (s4))))))) := by
    rw [hP4, show 0 + s0.length + 4 + t1.length + (strL "</h" ++ (strL "2>" ++ (s1))).length + 4 + t2.length + (strL "</h" ++ (strL "3>" ++ (s2))).length + 4 + t3.length = (s0 ++ (strL "<h" ++ (['2'] ++ (strL ">" ++ (t1 ++ (strL "</h" ++ (strL "2>" ++ (s1 ++ (strL "<h" ++ (['3'] ++ (strL ">" ++ (t2 ++ (strL "</h" ++ (strL "3>" ++ (s2 ++ (strL "<h" ++ (['3'] ++ (strL ">" ++ (t3))))))))))))))))))).length by
        simp [List.length_append, eh, eg, ec, e2g, e3g]
        omega,
      List.drop_left]
  have hP5 : html = (s0 ++ (strL "<h" ++ (['2'] ++ (strL ">" ++ (t1 ++ (strL "</h" ++ (strL "2>" ++ (s1 ++ (strL "<h" ++ (['3'] ++ (strL ">" ++ (t2 ++ (strL "</h" ++ (strL "3>" ++ (s2 ++ (strL "<h" ++ (['3'] ++ (strL ">" ++ (t3 ++ (strL "</h" ++ (strL "3>" ++ (s3 ++ (strL "<h" ++ (['2'] ++ (strL ">" ++ (t4)))))))))))))))))))))))))) ++ (strL "</h" ++ (strL "2>" ++ (s4))) := by
    rw [hcanon]
    simp [List.append_assoc]
  have hdrop5 : html.drop (0 + s0.length + 4 + t1.length + (strL "</h" ++ (strL "2>" ++ (s1))).length + 4 + t2.length + (strL "</h" ++ (strL "3>" ++ (s2))).length + 4 + t3.length + (strL "</h" ++ (strL "3>" ++ (s3))).length + 4 + t4.length) = strL "</h" ++ (strL "2>" ++ (s4)) := by
    rw [hP5, show 0 + s0.length + 4 + t1.length + (strL "</h" ++ (strL "2>" ++ (s1))).length + 4 + t2.length + (strL "</h" ++ (strL "3>" ++ (s2))).length + 4 + t3.length + (strL "</h" ++ (strL "3>" ++ (s3))).length + 4 + t4.length = (s0 ++ (strL "<h" ++ (['2'] ++ (strL ">" ++ (t1 ++ (strL "</h" ++ (strL "2>" ++ (s1 ++ (strL "<h" ++ (['3'] ++ (strL ">" ++ (t2 ++ (strL "</h" ++ (strL "3>" ++ (s2 ++ (strL "<h" ++ (['3'] ++ (strL ">" ++ (t3 ++ (strL "</h" ++ (strL "3>" ++ (s3 ++ (strL "<h" ++ (['2'] ++ (strL ">" ++ (t4)))))))))))))))))))))))))).length by
        simp [List.length_append, eh, eg, ec, e2g, e3g]
        omega,
      List.drop_left]
  unfold generateTableOfContents
  rw [tocLoop_heading_step (show n + 5 = (n + 4) + 1 from rfl) hdrop1 hs0 ht1
      (by decide) (by decide),
    tocLoop_heading_step (show n + 4 = (n + 3) + 1 from rfl) hdrop2
      (noPatStart_append (by decide) (noPatStart_append (by decide) hs1)) ht2
      (by decide) (by decide),
    tocLoop_heading_step (show n + 3 = (n + 2) + 1 from rfl) hdrop3
      (noPatStart_append (by decide) (noPatStart_append (by decide) hs2)) ht3
      (by decide) (by decide),
    tocLoop_heading_step (show n + 2 = (n + 1) + 1 from rfl) hdrop4
      (noPatStart_append (by decide) (noPatStart_append (by decide) hs3)) ht4
      (by decide) (by decide),
    tocLoop_done (show n + 1 = n + 1 from rfl) hdrop5
      (noPatStart_append (by decide) (noPatStart_append (by decide) hs4))]
  simp only [show ('2'.toNat - 48 : Nat) = 2 from rfl,
    show ('3'.toNat - 48 : Nat) = 3 from rfl]
  simp only [generateElementForToc]
  have hli : (strL "<li>").isEmpty = false := rfl
  have hne : ¬(strL "<li>" = []) := by decide
  simp [hli, hne, List.append_assoc]

/-- Witness for C7 at the concrete body `<h2>A</h2><h3>B</h3><h3>C</h3><h2>D</h2>`. -/
theorem toc_nesting_h2_h3_h3_h2_witness :
    generateTableOfContents (0 + 5)
        (([] : List Char) ++ (strL "<h2>" ++ (strL "A" ++ (strL "</h2>" ++ (([] : List Char) ++ (strL "<h3>"
          ++ (strL "B" ++ (strL "</h3>" ++ (([] : List Char) ++ (strL "<h3>" ++ (strL "C"
          ++ (strL "</h3>" ++ (([] : List Char) ++ (strL "<h2>" ++ (strL "D"
          ++ (strL "</h2>" ++ ([] : List Char)))))))))))))))))
      = .ok
          (strL "<li><a class=\"top\" href=\"#\">(Top)</a></li>"
            ++ (strL "<li>" ++ strL "<details open><summary>"
              ++ strL "<a href=\"#" ++ get_id_from_name (strL "A") ++ strL "\">" ++ strL "A"
              ++ strL "</a>" ++ strL "</summary><ul>"
              ++ strL "<li>" ++ strL "<a href=\"#" ++ get_id_from_name (strL "B")
              ++ strL "\">" ++ strL "B" ++ strL "</a>" ++ strL "</li>"
              ++ strL "<li>" ++ strL "<a href=\"#" ++ get_id_from_name (strL "C")
              ++ strL "\">" ++ strL "C" ++ strL "</a>" ++ strL "</li></ul></details>"
              ++ strL "</li>"
              ++ strL "<li>" ++ strL "<a href=\"#" ++ get_id_from_name (strL "D")
              ++ strL "\">" ++ strL "D" ++ strL "</a>" ++ strL "</li>")
            ++ strL "<li><a href=\"#references\">References</a></li>")
          ((strL "<li>" ++ strL "<details open><summary>"
              ++ strL "<a href=\"#" ++ get_id_from_name (strL "A") ++ strL "\">" ++ strL "A"
              ++ strL "</a>" ++ strL "</summary><ul>"
              ++ strL "<li>" ++ strL "<a href=\"#" ++ get_id_from_name (strL "B")
              ++ strL "\">" ++ strL "B" ++ strL "</a>" ++ strL "</li>"
              ++ strL "<li>" ++ strL "<a href=\"#" ++ get_id_from_name (strL "C")
              ++ strL "\">" ++ strL "C" ++ strL "</a>" ++ strL "</li></ul></details>"
              ++ strL "</li>"
              ++ strL "<li>" ++ strL "<a href=\"#" ++ get_id_from_name (strL "D")
              ++ strL "\">" ++ strL "D" ++ strL "</a>" ++ strL "</li>")
            ++ strL "<li><a href=\"#references\">References</a></li>")
          [] :=
  toc_nesting_h2_h3_h3_h2 [] [] [] [] [] (strL "A") (strL "B") (strL "C")
    (strL "D") 0 (by decide) (by decide) (by decide) (by decide) (by decide)
    (by decide) (by decide) (by decide) (by decide)

/-! ### Claim C9: front-matter typed values -/

/-- `VariableValue` (markdown.rs lines 430-437), parameterised by the
representation `F` of `f64` and `D` of `chrono::DateTime<Utc>` (both
external to this crate). -/
inductive VariableValue (F D : Type) where
  | string (s : List Char)
  | bool (b : Bool)
  | number (x : F)
  | array (a : List (VariableValue F D))
  | date (d : D)

/-- Outcome of `VariableValue::from_str`: the value plus `tracing::warn`
lines, an `anyhow` error (a propagated timestamp parse failure), a panic
(out-of-bounds slice on `[` or `"` alone), or fuel exhaustion (model
artefact). -/
inductive FromStrOut (F D : Type) where
  | ok (v : VariableValue F D) (warns : List String)
  | err (msg : String)
  | panicked
  | fuelOut

/-- Accumulator for the array branch of `from_str`. -/
inductive FromManyOut (F D : Type) where
  | ok (vs : List (VariableValue F D)) (warns : List String)
  | err (msg : String)
  | panicked
  | fuelOut

/-- `str::split(',')` (and `str::lines` below) splitter. -/
def splitOnChar (c : Char) : List Char → List (List Char)
  | [] => [[]]
  | x :: xs =>
    if x = c then [] :: splitOnChar c xs
    else
      match splitOnChar c xs with
      | [] => [[x]]
      | y :: ys => (x :: y) :: ys

/-- Embedding of `VariableValue::from_str` (markdown.rs lines 439-471),
together with its `for value in ...split(',')` loop (lines 444-446), as one
function structurally recursive on fuel: `.inl value` is a `from_str` call,
`.inr pieces` is the element loop over the comma-separated pieces.
`pf` abstracts `str::parse::<f64>` (`none` = parse failure), `pd` abstracts
`str::parse::<DateTime<Utc>>` (`.error` carries the message the `?`
propagates).  One unit of fuel per recursion depth of the array syntax;
`value[1..value.len() - 1]` panics when the trimmed value is `[` or `"`
alone (length 1). -/
def fromStrCore {F D : Type} (pf : List Char → Option F)
    (pd : List Char → Except String D) :
    Nat → List Char ⊕ List (List Char) → FromStrOut F D ⊕ FromManyOut F D
  | 0, .inl _ => .inl .fuelOut
  | 0, .inr _ => .inr .fuelOut
  | fuel + 1, .inl value =>
    .inl (
      if (trimChars value).head? = some '[' then
        if (trimChars value).length < 2 then .panicked
        else
          match fromStrCore pf pd fuel (.inr (splitOnChar ','
              (slice (trimChars value) 1 ((trimChars value).length - 1)))) with
          | .inr (.ok vs ws) =>
            .ok (.array vs)
              (ws ++ if (trimChars value).getLast? = some ']' then []
                     else ["Array variable is not closed with bracket character."])
          | .inr (.err m) => .err m
          | .inr .panicked => .panicked
          | _ => .fuelOut
      else if (trimChars value).head? = some '"' then
        if (trimChars value).length < 2 then .panicked
        else
          .ok (.string (trimChars (slice (trimChars value) 1 ((trimChars value).length - 1))))
            (if (trimChars value).getLast? = some '"' then []
             else ["String variable is not closed with quote character."])
      else if trimChars value = strL "true" then .ok (.bool true) []
      else if trimChars value = strL "false" then .ok (.bool false) []
      else
        match pf (trimChars value) with
        | some x => .ok (.number x) []
        | none =>
          match pd (trimChars value) with
          | .error m => .err m
          | .ok d => .ok (.date d) [])
  | _ + 1, .inr [] => .inr (.ok [] [])
  | fuel + 1, .inr (p :: ps) =>
    .inr (
      match fromStrCore pf pd fuel (.inl p) with
      | .inl (.ok v ws) =>
        match fromStrCore pf pd fuel (.inr ps) with
        | .inr (.ok vs ws2) => .ok (v :: vs) (ws ++ ws2)
        | .inr other => other
        | .inl _ => .fuelOut
      | .inl (.err m) => .err m
      | .inl .panicked => .panicked
      | _ => .fuelOut)

/-- `VariableValue::from_str` proper: the `.inl` side of `fromStrCore`. -/
def fromStr {F D : Type} (pf : List Char → Option F)
    (pd : List Char → Except String D) (fuel : Nat) (value : List Char) :
    FromStrOut F D :=
  match fromStrCore pf pd fuel (.inl value) with
  | .inl r => r
  | .inr _ => .fuelOut

/-- `str::lines`: split at `\n`, strip one `\r` before each `\n`, and do not
produce a final empty line for a trailing newline.  A final segment without a
line ending keeps any trailing `\r`. -/
def rustLines (l : List Char) : List (List Char) :=
  ((splitOnChar '\n' l).dropLast.map fun line =>
    if line.getLast? = some '\r' then line.dropLast else line) ++
  (match (splitOnChar '\n' l).getLast? with
   | some [] => []
   | some lastPart => [lastPart]
   | none => [])

/-- Outcome of `extract_variables`: the front-matter map (most recent
insertion first, as `HashMap::insert` overwrites), the mutated file content,
and the `tracing::warn` lines; or a propagated `anyhow` error, a panic, or
fuel exhaustion (model artefact). -/
inductive ExtractOut (F D : Type) where
  | ok (vars : List (List Char × VariableValue F D)) (content : List Char)
      (warns : List String)
  | err (msg : String)
  | panicked
  | fuelOut

/-- Intermediate outcome of the `for line in variable_text.lines()` loop of
`extract_variables` (markdown.rs lines 187-193). -/
inductive LinesOut (F D : Type) where
  | ok (vars : List (List Char × VariableValue F D)) (warns : List String)
  | err (msg : String)
  | panicked
  | fuelOut

/-- The line loop of `extract_variables` (markdown.rs lines 187-193):
`splitn(2, ':')` yields a second part only when the line contains `:`
(key = before the first `:`, value = after it); then `from_str(value)?`
(the `?` aborts the loop and the function) followed by
`result.insert(key.trim().to_owned(), value)`. -/
def processLines {F D : Type} (pf : List Char → Option F)
    (pd : List Char → Except String D) (fuel : Nat) :
    List (List Char) → List (List Char × VariableValue F D) → List String →
    LinesOut F D
  | [], vars, warns => .ok vars warns
  | line :: rest, vars, warns =>
    match findSub line (strL ":") with
    | none => processLines pf pd fuel rest vars warns
    | some i =>
      match fromStr pf pd fuel (line.drop (i + 1)) with
      | .err m => .err m
      | .panicked => .panicked
      | .fuelOut => .fuelOut
      | .ok v ws =>
        processLines pf pd fuel rest ((trimChars (line.take i), v) :: vars)
          (warns ++ ws)

/-- Embedding of `extract_variables` (markdown.rs lines 172-197): find the
first `---`, find the next `---` after it, parse each line of the text in
between as `key: value` with `VariableValue::from_str` (errors propagate via
`?`), then delete the whole `--- ... ---` block from the file content. -/
def extractVariables {F D : Type} (pf : List Char → Option F)
    (pd : List Char → Except String D) (fuel : Nat) (fileContent : List Char) :
    ExtractOut F D :=
  match findSub fileContent (strL "---") with
  | none => .ok [] fileContent []
  | some start =>
    match findSub (slice fileContent (start + 3) fileContent.length)
        (strL "---") with
    | none => .ok [] fileContent []
    | some e =>
      match processLines pf pd fuel
          (rustLines (slice fileContent (start + 3) (start + 3 + e))) [] [] with
      | .err m => .err m
      | .panicked => .panicked
      | .fuelOut => .fuelOut
      | .ok vars warns =>
        .ok vars (replaceRange fileContent start (start + 3 + e + 3) []) warns

/-! Lemmas for `splitOnChar` -/

theorem splitOnChar_cons_self (c : Char) (xs : List Char) :
    splitOnChar c (c :: xs) = [] :: splitOnChar c xs := by
  simp [splitOnChar]

theorem splitOnChar_append_of_not_mem {c : Char} {a b : List Char} (h : c ∉ a)
    {y : List Char} {ys : List (List Char)} (hb : splitOnChar c b = y :: ys) :
    splitOnChar c (a ++ b) = (a ++ y) :: ys := by
  induction a with
  | nil => simpa using hb
  | cons x xs ih =>
    have h' : c ∉ xs := fun hm => h (List.mem_cons_of_mem _ hm)
    have hx : ¬x = c := fun hc => h (hc ▸ List.mem_cons_self x xs)
    rw [List.cons_append, splitOnChar, if_neg hx, ih h']
    rfl

/-- The scalar fall-through of `from_str`: not an array, not a string, not a
bool, float parse failed, so the timestamp parse decides the outcome. -/
theorem fromStr_scalar_fallthrough (F D : Type) (pf : List Char → Option F)
    (pd : List Char → Except String D) (n : Nat) (value : List Char)
    (h1 : ¬(trimChars value).head? = some '[')
    (h2 : ¬(trimChars value).head? = some '"')
    (h3 : ¬trimChars value = strL "true")
    (h4 : ¬trimChars value = strL "false")
    (hpf : pf (trimChars value) = none) :
    (∀ m, pd (trimChars value) = .error m →
        fromStr pf pd (n + 1) value = .err m) ∧
    (∀ d, pd (trimChars value) = .ok d →
        fromStr pf pd (n + 1) value = .ok (.date d) []) := by
  constructor
  · intro m hm
    show (match fromStrCore pf pd (n + 1) (.inl value) with
          | .inl r => r | .inr _ => .fuelOut) = FromStrOut.err m
    rw [fromStrCore]
    simp only [if_neg h1, if_neg h2, if_neg h3, if_neg h4, hpf, hm]
  · intro d hd
    show (match fromStrCore pf pd (n + 1) (.inl value) with
          | .inl r => r | .inr _ => .fuelOut) = FromStrOut.ok (.date d) []
    rw [fromStrCore]
    simp only [if_neg h1, if_neg h2, if_neg h3, if_neg h4, hpf, hd]

/-- Claim C9: for every front-matter value whose trimmed form does not start
with `[` or `"`, is not the literal `true` or `false`, and does not parse as
a float, `VariableValue::from_str` attempts the timestamp parse — a parse
success yields a `Date`, and a parse failure is a hard error; through
`extract_variables` (here on a file `---` + `\ntitle:` + value + `\n` +
`---` + rest) that error propagates out via `?`, failing analysis of the
whole file. -/
theorem from_str_timestamp_failure_propagates :
    (∀ (F D : Type) (pf : List Char → Option F)
        (pd : List Char → Except String D) (n : Nat) (value : List Char),
        ¬(trimChars value).head? = some '[' →
        ¬(trimChars value).head? = some '"' →
        ¬trimChars value = strL "true" →
        ¬trimChars value = strL "false" →
        pf (trimChars value) = none →
        (∀ m, pd (trimChars value) = .error m →
            fromStr pf pd (n + 1) value = .err m) ∧
        (∀ d, pd (trimChars value) = .ok d →
            fromStr pf pd (n + 1) value = .ok (.date d) [])) ∧
    (∀ (F D : Type) (pf : List Char → Option F)
        (pd : List Char → Except String D) (n : Nat) (v rest : List Char)
        (m : String),
        '-' ∉ v → '\n' ∉ v → '\r' ∉ v →
        ¬(trimChars v).head? = some '[' →
        ¬(trimChars v).head? = some '"' →
        ¬trimChars v = strL "true" →
        ¬trimChars v = strL "false" →
        pf (trimChars v) = none →
        pd (trimChars v) = .error m →
        extractVariables pf pd (n + 1)
          (strL "---" ++ ((strL "\ntitle:" ++ (v ++ strL "\n")) ++
            (strL "---" ++ rest))) = .err m) := by
  constructor
  · exact fromStr_scalar_fallthrough
  · intro F D pf pd n v rest m hdash hnl hcr h1 h2 h3 h4 hpf hpd
    have hA := (fromStr_scalar_fallthrough F D pf pd n v h1 h2 h3 h4 hpf).1 m hpd
    have e3 : (strL "---").length = 3 := rfl
    have e7 : (strL "\ntitle:").length = 7 := rfl
    have e1 : (strL "\n").length = 1 := rfl
    have e6 : (strL "title:").length = 6 := rfl
    have e5 : (strL "title").length = 5 := rfl
    have ePlen : (strL "\ntitle:" ++ (v ++ strL "\n")).length = v.length + 8 := by
      simp [List.length_append, e7, e1]; omega
    -- first `---` is at position 0
    have hfind1 : findSub (strL "---" ++ ((strL "\ntitle:" ++ (v ++ strL "\n")) ++
        (strL "---" ++ rest))) (strL "---") = some 0 :=
      findSub_of_isPrefixOf (isPrefixOf_append _ _)
    -- no `---` can start inside the front-matter text
    have hnpv : noPatStart v (strL "---") = true := noPatStart_cons_of_not_mem hdash
    have hnpP : noPatStart (strL "\ntitle:" ++ (v ++ strL "\n")) (strL "---") = true :=
      noPatStart_append (by decide) (noPatStart_append hnpv (by decide))
    -- second `---` found at v.length + 8 in the dropped content
    have hfind2 : findSub ((strL "\ntitle:" ++ (v ++ strL "\n")) ++
        (strL "---" ++ rest)) (strL "---") = some (v.length + 8) := by
      rw [findSub_append hnpP, findSub_of_isPrefixOf (isPrefixOf_append _ _)]
      simp [ePlen]
    have hdrop3 : (strL "---" ++ ((strL "\ntitle:" ++ (v ++ strL "\n")) ++
        (strL "---" ++ rest))).drop 3 = (strL "\ntitle:" ++ (v ++ strL "\n")) ++
        (strL "---" ++ rest) := by
      have hdc := drop_concat (strL "---") ((strL "\ntitle:" ++ (v ++ strL "\n")) ++
        (strL "---" ++ rest)) 0
      simpa [e3] using hdc
    have hsl : slice (strL "---" ++ ((strL "\ntitle:" ++ (v ++ strL "\n")) ++
        (strL "---" ++ rest))) (0 + 3)
        (strL "---" ++ ((strL "\ntitle:" ++ (v ++ strL "\n")) ++
        (strL "---" ++ rest))).length =
        (strL "\ntitle:" ++ (v ++ strL "\n")) ++ (strL "---" ++ rest) := by
      rw [slice_drop]
      exact hdrop3
    -- the variable text slice is exactly the part between the two `---`
    have hvt : slice (strL "---" ++ ((strL "\ntitle:" ++ (v ++ strL "\n")) ++
        (strL "---" ++ rest))) (0 + 3) (0 + 3 + (v.length + 8)) =
        strL "\ntitle:" ++ (v ++ strL "\n") := by
      show slice (strL "---" ++ ((strL "\ntitle:" ++ (v ++ strL "\n")) ++
        (strL "---" ++ rest))) ((strL "---").length + 0)
        ((strL "---").length + (v.length + 8)) = strL "\ntitle:" ++ (v ++ strL "\n")
      rw [slice_append _ _ _ _ (by simp [List.length_append, e7, e1, e3]; omega),
        slice_append_left _ _ _ _ (le_of_eq ePlen.symm), ← ePlen, slice_full]
    -- split the variable text into its lines
    have hsv : splitOnChar '\n' (v ++ strL "\n") = (v ++ []) :: [[]] :=
      splitOnChar_append_of_not_mem hnl rfl
    have hsplitInner : splitOnChar '\n' (strL "title:" ++ (v ++ strL "\n")) =
        (strL "title:" ++ v) :: [[]] := by
      have hs := splitOnChar_append_of_not_mem (show '\n' ∉ strL "title:" by decide) hsv
      simpa using hs
    have hPcons : strL "\ntitle:" ++ (v ++ strL "\n") =
        '\n' :: (strL "title:" ++ (v ++ strL "\n")) := rfl
    have hparts : splitOnChar '\n' (strL "\ntitle:" ++ (v ++ strL "\n")) =
        [] :: ((strL "title:" ++ v) :: [[]]) := by
      rw [hPcons, splitOnChar_cons_self, hsplitInner]
    have hlastmid : ¬(strL "title:" ++ v).getLast? = some '\r' := by
      intro hc
      have hm := List.mem_of_mem_getLast? hc
      rcases List.mem_append.mp hm with h | h
      · exact absurd h (by decide)
      · exact hcr h
    have hlines : rustLines (strL "\ntitle:" ++ (v ++ strL "\n")) =
        [([] : List Char), strL "title:" ++ v] := by
      unfold rustLines
      rw [hparts]
      have hd : ([[], strL "title:" ++ v, []] : List (List Char)).dropLast =
          [[], strL "title:" ++ v] := rfl
      have hg : ([[], strL "title:" ++ v, []] : List (List Char)).getLast? =
          some [] := rfl
      rw [hd, hg]
      simp only [List.map]
      rw [if_neg (show ¬([] : List Char).getLast? = some '\r' by decide),
        if_neg hlastmid]
      exact List.append_nil _
    -- the two lines: the empty one is skipped, the `title:` one errors
    have hfnone : findSub ([] : List Char) (strL ":") = none := rfl
    have hfmid : findSub (strL "title:" ++ v) (strL ":") = some 5 := by
      have h5 : strL "title:" ++ v = strL "title" ++ (strL ":" ++ v) := rfl
      rw [h5, findSub_append (by decide),
        findSub_of_isPrefixOf (isPrefixOf_append _ _)]
      simp [e5]
    have hdrop6 : (strL "title:" ++ v).drop (5 + 1) = v := by
      have hdc := drop_concat (strL "title:") v 0
      simpa [e6] using hdc
    have hpl : processLines pf pd (n + 1)
        [([] : List Char), strL "title:" ++ v] [] [] = .err m := by
      rw [processLines]
      simp only [hfnone]
      rw [processLines]
      simp only [hfmid, hdrop6, hA]
    unfold extractVariables
    simp only [hfind1, hsl, hfind2, hvt, hlines, hpl]

/-- Witness for C9 at value `x` (float parse always fails, timestamp parse
always fails with message `bad`). -/
theorem from_str_timestamp_failure_propagates_witness :
    fromStr (fun _ => (none : Option Nat))
      (fun _ => (Except.error "bad" : Except String Nat)) 1 (strL "x") =
      .err "bad" ∧
    extractVariables (fun _ => (none : Option Nat))
      (fun _ => (Except.error "bad" : Except String Nat)) 1
      (strL "---\ntitle:x\n---!") = .err "bad" := by
  constructor
  · exact (from_str_timestamp_failure_propagates.1 Nat Nat
      (fun _ => none) (fun _ => Except.error "bad") 0 (strL "x")
      (by decide) (by decide) (by decide) (by decide) rfl).1 "bad" rfl
  · exact from_str_timestamp_failure_propagates.2 Nat Nat
      (fun _ => none) (fun _ => Except.error "bad") 0 (strL "x") (strL "!")
      "bad" (by decide) (by decide) (by decide) (by decide) (by decide)
      (by decide) (by decide) rfl rfl

/-! ### Claim C10: files without an extension crash the walk -/

/-- A directory-walk entry as observed by `collect_files_for_processing`:
its path and whether `file_type().is_file()` holds. -/
structure WalkEntry where
  path : List Char
  isFile : Bool
deriving DecidableEq

/-- `std::path::Path::extension` for slash-separated valid-UTF-8 paths: the
part of the final component after its last `.`, or `none` when the component
has no `.` or starts with its only `.` (hidden files like `.gitignore`). -/
def fileExtension (p : List Char) : Option (List Char) :=
  match (splitOnChar '/' p).getLast? with
  | none => none
  | some name =>
    match splitOnChar '.' name with
    | [] => none
    | [_] => none
    | [[], _] => none
    | parts => some (parts.getLast?.getD [])

/-- Embedding of `collect_files_for_processing` (content.rs lines 154-179)
over the list of entries the directory walk yields, in order.  `none` is the
panic of `file.path().extension().to_owned().unwrap()` on a regular file
without an extension, which aborts the whole run. -/
def collect_files_for_processing : List WalkEntry → Option (List (List Char))
  | [] => some []
  | e :: rest =>
    if e.isFile = false then collect_files_for_processing rest
    else
      match fileExtension e.path with
      | none => none
      | some ext =>
        if ¬ext = strL "html" ∧ ¬ext = strL "md" then
          collect_files_for_processing rest
        else if (splitOnChar '/' e.path).getLast? = some (strL "_template.html") then
          collect_files_for_processing rest
        else
          (collect_files_for_processing rest).map (fun fs => e.path :: fs)

/-- Claim C10 (implicit): `collect_files_for_processing` panics exactly when
the walk contains a regular file whose path has no extension — the
`Option` returned by `extension()` is unwrapped before the `html`/`md`
comparison, so such a file crashes the whole run instead of being skipped. -/
theorem collect_files_no_extension_panics (entries : List WalkEntry) :
    collect_files_for_processing entries = none ↔
      ∃ e ∈ entries, e.isFile = true ∧ fileExtension e.path = none := by
  induction entries with
  | nil => simp [collect_files_for_processing]
  | cons e rest ih =>
    rw [collect_files_for_processing]
    by_cases hf : e.isFile = false
    · rw [if_pos hf, ih]
      simp [List.exists_mem_cons_iff, hf]
    · have hf' : e.isFile = true := by revert hf; cases e.isFile <;> simp
      rw [if_neg hf]
      cases hext : fileExtension e.path with
      | none =>
        simp [List.exists_mem_cons_iff, hext, hf']
      | some ext =>
        simp only [hext]
        by_cases h1 : ¬ext = strL "html" ∧ ¬ext = strL "md"
        · rw [if_pos h1, ih]
          simp [List.exists_mem_cons_iff, hext]
        · rw [if_neg h1]
          by_cases h2 : (splitOnChar '/' e.path).getLast? =
              some (strL "_template.html")
          · rw [if_pos h2, ih]
            simp [List.exists_mem_cons_iff, hext]
          · rw [if_neg h2, Option.map_eq_none', ih]
            simp [List.exists_mem_cons_iff, hext]

/-- Witness for C10: a walk containing `content/LICENSE` (a regular file
with no extension) makes the collection panic even though another valid
`md` file follows. -/
theorem collect_files_no_extension_panics_witness :
    collect_files_for_processing
      [⟨strL "content/LICENSE", true⟩, ⟨strL "content/a.md", true⟩] = none :=
  (collect_files_no_extension_panics _).mpr
    ⟨⟨strL "content/LICENSE", true⟩, by decide, by decide, by decide⟩

end Vsg
